import Mathlib

/-!
# Seq API key resource: request building, response merge and CRUD protocol

A shallow embedding of `internal/provider/resource_api_key.go`.

* Terraform framework values (`types.String`, `types.Set`, `types.Map`) are
  three-state: null, unknown, or a known value.
* The HTTP client (`Client.doJSON`) is a step function on an arbitrary server
  state: it receives a request and answers with a decoded record or an error.
* Every CRUD operation returns its diagnostics, its effect on the Terraform
  state, the server state it left behind and the list of requests it issued.
-/

namespace SeqProvider

/-! ## Terraform framework values -/

/-- The framework value `types.String`: null, unknown, or a known string. -/
inductive TFString where
  | null
  | unknown
  | value (s : String)
  deriving DecidableEq, Repr, Inhabited

namespace TFString

/-- The method `IsNull`. -/
def IsNull : TFString → Bool
  | .null => true
  | _ => false

/-- The method `IsUnknown`. -/
def IsUnknown : TFString → Bool
  | .unknown => true
  | _ => false

/-- The method `ValueString`: the known string, or the empty string for null and unknown. -/
def ValueString : TFString → String
  | .value s => s
  | _ => ""

end TFString

/-- The framework value `types.Set` with string element type. The elements are
framework strings themselves, kept in the order they were given. -/
inductive TFSet where
  | null
  | unknown
  | value (elems : List TFString)
  deriving DecidableEq, Repr, Inhabited

namespace TFSet

/-- The method `IsNull`. -/
def IsNull : TFSet → Bool
  | .null => true
  | _ => false

/-- The method `IsUnknown`. -/
def IsUnknown : TFSet → Bool
  | .unknown => true
  | _ => false

end TFSet

/-- The framework value `types.Map` with string element type, as an association
list from key to framework string. -/
inductive TFMap where
  | null
  | unknown
  | value (entries : List (String × TFString))
  deriving DecidableEq, Repr, Inhabited

namespace TFMap

/-- The method `IsNull`. -/
def IsNull : TFMap → Bool
  | .null => true
  | _ => false

/-- The method `IsUnknown`. -/
def IsUnknown : TFMap → Bool
  | .unknown => true
  | _ => false

end TFMap

/-- Go map assignment `m[k] = v` on an association list: an existing key is
overwritten in place, a new key is appended. -/
def mapSet {α : Type} (m : List (String × α)) (k : String) (v : α) : List (String × α) :=
  match m with
  | [] => [(k, v)]
  | (k', v') :: rest => if k' = k then (k, v) :: rest else (k', v') :: mapSet rest k v

/-- Go map read `m[k]` with the comma-ok result. -/
def mapGet {α : Type} (m : List (String × α)) (k : String) : Option α :=
  match m with
  | [] => none
  | (k', v') :: rest => if k' = k then some v' else mapGet rest k

/-- Conversion of one framework string to a Go `string`, as `ElementsAs` does
it with `allowUnhandled = false`: null and unknown elements are refused. -/
def elementAsString : TFString → Option String
  | .value s => some s
  | _ => none

/-- Conversion of set elements to `[]string`; `none` stands for the error diagnostics. -/
def elementsAsStrings : List TFString → Option (List String)
  | [] => some []
  | e :: rest =>
    match elementAsString e, elementsAsStrings rest with
    | some s, some ss => some (s :: ss)
    | _, _ => none

/-- Conversion of map entries to `map[string]string`; `none` stands for the error diagnostics. -/
def elementsAsStringMap : List (String × TFString) → Option (List (String × String))
  | [] => some []
  | (k, e) :: rest =>
    match elementAsString e, elementsAsStringMap rest with
    | some s, some ss => some ((k, s) :: ss)
    | _, _ => none

/-- APIKeyModel is the Terraform state model for an API key. -/
structure APIKeyModel where
  ID : TFString
  Title : TFString
  Token : TFString
  OwnerID : TFString
  Permissions : TFSet
  MinimumLevel : TFString
  Filter : TFString
  AppliedProperties : TFMap
  deriving DecidableEq, Repr, Inhabited

/-! ## Wire shapes of the response -/

/-- A Go `float64`. A finite value is `± mant * 2 ^ exp`. -/
inductive Float64 where
  | finite (neg : Bool) (mant : Nat) (exp : Int)
  | inf (neg : Bool)
  | nan
  deriving DecidableEq, Repr, Inhabited

/-- A value held in a Go `any` after JSON decoding. -/
inductive AnyValue where
  | nil
  | string (s : String)
  | float64 (x : Float64)
  | bool (b : Bool)
  | array (xs : List AnyValue)
  | object (fields : List (String × AnyValue))
  deriving Repr, Inhabited

/-- The response part `eventPropertyPart`. -/
structure eventPropertyPart where
  Name : String
  Value : AnyValue
  deriving Repr, Inhabited

/-- The response part `descriptiveFilterPart`. -/
structure descriptiveFilterPart where
  Filter : String
  FilterNonStrict : String
  deriving DecidableEq, Repr, Inhabited

/-- The response part `inputSettingsPart`; the two pointer fields are options,
the slice is a list (only its length and its elements are read). -/
structure inputSettingsPart where
  AppliedProperties : List eventPropertyPart
  Filter : Option descriptiveFilterPart
  MinimumLevel : Option String
  deriving Repr, Inhabited

/-- The decoded response `apiKeyResponse`; a nil slice or pointer is `none`. -/
structure apiKeyResponse where
  ID : String
  Title : String
  Token : String
  OwnerID : String
  AssignedPermissions : Option (List String)
  Permissions : Option (List String)
  InputSettings : Option inputSettingsPart
  deriving Repr, Inhabited

/-! ## The parts of the Go runtime the code relies on -/

/-- Behaviour of the Go runtime and of `fmt` that the language leaves to the
implementation or that lives in the standard library. -/
structure GoRuntime where
  /-- The conversion `int64(x)` for an `x` that `int64` cannot represent. -/
  int64Unrepresentable : Float64 → Int
  /-- The rendering `fmt.Sprintf("%g", x)`. -/
  sprintfG : Float64 → String
  /-- The rendering `fmt.Sprintf("%v", v)` of a decoded array or object. -/
  sprintfV : AnyValue → String

/-- The integer part of a finite `float64`, fraction discarded (towards zero). -/
def truncFinite (neg : Bool) (mant : Nat) (exp : Int) : Int :=
  let magnitude : Nat :=
    match exp with
    | Int.ofNat e => mant * 2 ^ e
    | Int.negSucc e => mant / 2 ^ (e + 1)
  if neg then -(magnitude : Int) else (magnitude : Int)

/-- Whether a finite `float64` has no fractional part. -/
def isIntegralFinite (mant : Nat) (exp : Int) : Bool :=
  match exp with
  | Int.ofNat _ => true
  | Int.negSucc e => mant % 2 ^ (e + 1) == 0

/-- The conversion `int64(x)`. -/
def toInt64 (rt : GoRuntime) (x : Float64) : Int :=
  match x with
  | .finite neg mant exp =>
    let t := truncFinite neg mant exp
    if -(2 ^ 63 : Int) ≤ t ∧ t < (2 ^ 63 : Int) then t else rt.int64Unrepresentable x
  | _ => rt.int64Unrepresentable x

/-- The number of binary digits of `n`, counted with at most `fuel` halvings. -/
def bitLengthAux : Nat → Nat → Nat
  | 0, _ => 0
  | fuel + 1, n => if n = 0 then 0 else bitLengthAux fuel (n / 2) + 1

/-- The number of binary digits of `n`; `n` halvings always suffice. -/
def bitLength (n : Nat) : Nat :=
  bitLengthAux n n

/-- The exact value of `float64(i)` for an `int64` `i`: the nearest integer with
a 53-bit significand, ties to even. -/
def roundToFloat64 (i : Int) : Int :=
  let a : Nat := i.natAbs
  let bits : Nat := bitLength a
  let r : Nat :=
    if bits ≤ 53 then a
    else
      let shift := bits - 53
      let q := a / 2 ^ shift
      let rem := a % 2 ^ shift
      let half := 2 ^ (shift - 1)
      if rem > half ∨ (rem = half ∧ q % 2 = 1) then (q + 1) * 2 ^ shift else q * 2 ^ shift
  if i < 0 then -(r : Int) else (r : Int)

/-- The comparison `val == float64(int64(val))`. -/
def equalsOwnInt64 (rt : GoRuntime) (val : Float64) : Bool :=
  match val with
  | .finite neg mant exp =>
    isIntegralFinite mant exp && decide (truncFinite neg mant exp = roundToFloat64 (toInt64 rt val))
  | _ => false

/-- anyToString renders a decoded property value as a string. -/
def anyToString (rt : GoRuntime) (v : AnyValue) : String :=
  match v with
  | .nil => ""
  | .string val => val
  | .float64 val =>
    if equalsOwnInt64 rt val then toString (toInt64 rt val) else rt.sprintfG val
  | .bool val => if val then "true" else "false"
  | other => rt.sprintfV other

/-- stringSliceToAttrValues wraps every string as a known framework string. -/
def stringSliceToAttrValues (vs : List String) : List TFString :=
  vs.map TFString.value

/-- The loop of applyAPIKeyResponse that fills `propsMap` from the response's property list. -/
def buildPropsMap (rt : GoRuntime) (props : List eventPropertyPart)
    (propsMap : List (String × TFString)) : List (String × TFString) :=
  match props with
  | [] => propsMap
  | prop :: rest =>
    let strValue : String :=
      match prop.Value with
      | .string v => v
      | v => anyToString rt v
    buildPropsMap rt rest (mapSet propsMap prop.Name (TFString.value strValue))

/-- applyAPIKeyResponse merges a decoded server response into the model. -/
def applyAPIKeyResponse (rt : GoRuntime) (state : APIKeyModel) (resp : apiKeyResponse) :
    APIKeyModel :=
  let state := if resp.ID ≠ "" then { state with ID := TFString.value resp.ID } else state
  let state := if resp.Title ≠ "" then { state with Title := TFString.value resp.Title } else state
  let state := if resp.Token ≠ "" then { state with Token := TFString.value resp.Token } else state
  let state :=
    if resp.OwnerID ≠ "" then { state with OwnerID := TFString.value resp.OwnerID } else state
  let perms : Option (List String) :=
    match resp.AssignedPermissions with
    | none => resp.Permissions
    | some p => some p
  let state :=
    match perms with
    | some p => { state with Permissions := TFSet.value (stringSliceToAttrValues p) }
    | none => state
  match resp.InputSettings with
  | some settings =>
    let state :=
      match settings.MinimumLevel with
      | some level =>
        if level ≠ "" then { state with MinimumLevel := TFString.value level }
        else { state with MinimumLevel := TFString.null }
      | none => { state with MinimumLevel := TFString.null }
    let state :=
      match settings.Filter with
      | some f =>
        if f.Filter ≠ "" then
          let filterValue := f.FilterNonStrict
          let filterValue := if filterValue = "" then f.Filter else filterValue
          { state with Filter := TFString.value filterValue }
        else { state with Filter := TFString.null }
      | none => { state with Filter := TFString.null }
    if settings.AppliedProperties.length > 0 then
      { state with AppliedProperties := TFMap.value (buildPropsMap rt settings.AppliedProperties []) }
    else
      { state with AppliedProperties := TFMap.null }
  | none =>
    { state with
      MinimumLevel := TFString.null
      Filter := TFString.null
      AppliedProperties := TFMap.null }

/-! ## Request bodies -/

/-- A value stored in the request body `map[string]any`. -/
inductive BodyValue where
  | string (s : String)
  | strings (xs : List String)
  | object (fields : List (String × BodyValue))
  | objects (xs : List (List (String × BodyValue)))
  deriving Repr, Inhabited

/-- The request body `map[string]any`, as an association list. -/
abbrev Body := List (String × BodyValue)

/-! ## Errors, diagnostics and the HTTP client -/

/-- Modelled from the spec: the typed error `HTTPError` of the client, which is
declared outside these sources; any response outside 200..299 yields one, with
the status code and the trimmed response body as message. -/
structure HTTPError where
  StatusCode : Nat
  Message : String
  deriving DecidableEq, Repr, Inhabited

/-- Modelled from the spec: an error returned by the client call `doJSON`,
which is declared outside these sources; either an `HTTPError` or a transport
failure (connection, serialization) carrying only its text. -/
inductive ClientError where
  | http (e : HTTPError)
  | transport (text : String)
  deriving DecidableEq, Repr, Inhabited

/-- The test `errors.As(err, &httpErr)`. -/
def asHTTPError : ClientError → Option HTTPError
  | .http e => some e
  | .transport _ => none

/-- The constant `http.StatusBadRequest`. -/
def StatusBadRequest : Nat := 400

/-- The constant `http.StatusNotFound`. -/
def StatusNotFound : Nat := 404

/-- The constant `http.MethodGet`. -/
def MethodGet : String := "GET"

/-- The constant `http.MethodPost`. -/
def MethodPost : String := "POST"

/-- The constant `http.MethodPut`. -/
def MethodPut : String := "PUT"

/-- The constant `http.MethodDelete`. -/
def MethodDelete : String := "DELETE"

/-- Whether the character list `s` begins with `p`. -/
def startsWithChars : List Char → List Char → Bool
  | _, [] => true
  | [], _ :: _ => false
  | c :: s, d :: p => c == d && startsWithChars s p

/-- Whether `sub` occurs in `s` as a contiguous run. -/
def containsChars : List Char → List Char → Bool
  | [], sub => sub.isEmpty
  | c :: s, sub => startsWithChars (c :: s) sub || containsChars s sub

/-- The library function `strings.Contains`. -/
def stringsContains (s substr : String) : Bool :=
  containsChars s.data substr.data

/-- A diagnostic appended to a response. Every diagnostic the resource produces is an error. -/
inductive Diagnostic where
  /-- The call `AddError(summary, detail)` with a literal detail. -/
  | error (summary : String) (detail : String)
  /-- The call `AddError(summary, err.Error())`; the error stands for its text. -/
  | errorOf (summary : String) (err : ClientError)
  /-- The error diagnostic of a failed `ElementsAs`. -/
  | conversion
  deriving DecidableEq, Repr, Inhabited

/-- The method `HasError` of a diagnostics list. -/
def HasError (diags : List Diagnostic) : Bool :=
  !diags.isEmpty

/-- One call of the client: method, path and body (`none` when the body is nil). -/
structure Request where
  method : String
  path : String
  body : Option Body
  deriving Repr, Inhabited

/-- Modelled from the spec: the transport `Client.doJSON`, which is declared
outside these sources. A call is a step on the server state `σ`; it answers
with the decoded record (the zero record when the successful body is empty) or
with an error, in which case the output target is left as it was. -/
structure Client (σ : Type) where
  doJSON : Request → σ → Except ClientError apiKeyResponse × σ

/-- APIKeyResource manages Seq API keys via /api/apikeys. -/
structure APIKeyResource (σ : Type) where
  client : Option (Client σ)

/-- What an operation did to the Terraform state of the resource. -/
inductive StateEffect where
  | untouched
  | removed
  | set (m : APIKeyModel)
  deriving DecidableEq, Repr, Inhabited

/-- One call of the client together with what it answered. -/
structure Exchange where
  request : Request
  result : Except ClientError apiKeyResponse

/-- The result of one CRUD operation: the diagnostics of the response, the
effect on the Terraform state, the server state left behind, and the calls of
the client in the order they were made. -/
structure Outcome (σ : Type) where
  Diagnostics : List Diagnostic
  State : StateEffect
  server : σ
  exchanges : List Exchange

/-- The requests an operation issued, in order. -/
def Outcome.requests {σ : Type} (o : Outcome σ) : List Request :=
  o.exchanges.map Exchange.request

/-- The variable `errNotConfigured`, as the diagnostic that checkConfigured adds. -/
def errNotConfigured : Diagnostic :=
  Diagnostic.error "Provider not configured" "provider not configured"

/-- apiKeyRequestBody builds the body of a create or update request. The first
component is `none` for the nil map returned next to error diagnostics. -/
def apiKeyRequestBody (plan : APIKeyModel) (permissionsField : String) (id : String) :
    Option Body × List Diagnostic :=
  let body : Body := [("Title", BodyValue.string plan.Title.ValueString)]
  let body := if id ≠ "" then mapSet body "Id" (BodyValue.string id) else body
  let body :=
    if !plan.OwnerID.IsNull && !plan.OwnerID.IsUnknown && plan.OwnerID.ValueString ≠ "" then
      mapSet body "OwnerId" (BodyValue.string plan.OwnerID.ValueString)
    else body
  let withPerms : Except (List Diagnostic) Body :=
    match plan.Permissions with
    | .value elems =>
      match elementsAsStrings elems with
      | some perms => .ok (mapSet body permissionsField (BodyValue.strings perms))
      | none => .error [Diagnostic.conversion]
    | _ => .ok body
  match withPerms with
  | .error diags => (none, diags)
  | .ok body =>
    let inputSettings : Body := []
    let inputSettings :=
      if !plan.MinimumLevel.IsNull && !plan.MinimumLevel.IsUnknown then
        mapSet inputSettings "MinimumLevel" (BodyValue.string plan.MinimumLevel.ValueString)
      else inputSettings
    let inputSettings :=
      if !plan.Filter.IsNull && !plan.Filter.IsUnknown then
        mapSet inputSettings "Filter" (BodyValue.object
          [("Filter", BodyValue.string plan.Filter.ValueString),
           ("FilterNonStrict", BodyValue.string plan.Filter.ValueString)])
      else inputSettings
    let withProps : Except (List Diagnostic) Body :=
      match plan.AppliedProperties with
      | .value entries =>
        match elementsAsStringMap entries with
        | some propsMap =>
          .ok (mapSet inputSettings "AppliedProperties" (BodyValue.objects
            (propsMap.map fun nv =>
              [("Name", BodyValue.string nv.1), ("Value", BodyValue.string nv.2)])))
        | none => .error [Diagnostic.conversion]
      | _ => .ok inputSettings
    match withProps with
    | .error diags => (none, diags)
    | .ok inputSettings =>
      let body :=
        if inputSettings.length > 0 then mapSet body "InputSettings" (BodyValue.object inputSettings)
        else body
      (some body, [])

/-- The condition under which Create and Update resend the request with the
legacy field: `errors.As(err, &httpErr) && httpErr.StatusCode ==
http.StatusBadRequest && strings.Contains(httpErr.Message, "AssignedPermissions")`. -/
def legacyFallback (err : ClientError) : Bool :=
  match asHTTPError err with
  | some httpErr =>
    httpErr.StatusCode == StatusBadRequest && stringsContains httpErr.Message "AssignedPermissions"
  | none => false

/-- Whether a list of set elements holds the same element twice. -/
def repeatsElement : List TFString → Bool
  | [] => false
  | e :: rest => rest.contains e || repeatsElement rest

/-- The framework call `resp.State.Set(ctx, &state)`, as its diagnostics and its
effect on the state: the validation of set values refuses a permission set
that holds an element twice ("Duplicate Set Element") and then no state is set;
every other model is set. -/
def stateSet (m : APIKeyModel) : List Diagnostic × StateEffect :=
  match m.Permissions with
  | .value elems =>
    if repeatsElement elems then
      ([Diagnostic.error "Duplicate Set Element" "This attribute contains duplicate values"],
        StateEffect.untouched)
    else ([], StateEffect.set m)
  | _ => ([], StateEffect.set m)

/-- The method `APIKeyResource.Create`. -/
def Create {σ : Type} (rt : GoRuntime) (r : APIKeyResource σ) (server : σ) (plan : APIKeyModel) :
    Outcome σ :=
  match r.client with
  | none => ⟨[errNotConfigured], .untouched, server, []⟩
  | some client =>
    let (body, diags) := apiKeyRequestBody plan "AssignedPermissions" ""
    if HasError diags then ⟨diags, .untouched, server, []⟩
    else
      let finish := fun (created : apiKeyResponse) (server : σ) (diagnostics : List Diagnostic)
          (exchanges : List Exchange) =>
        let state := plan
        let state := applyAPIKeyResponse rt state created
        let state :=
          if state.OwnerID.IsUnknown then { state with OwnerID := TFString.null } else state
        let state :=
          if state.Token.IsUnknown then { state with Token := TFString.null } else state
        (⟨diagnostics ++ (stateSet state).1, (stateSet state).2, server, exchanges⟩ : Outcome σ)
      let request : Request := ⟨MethodPost, "/api/apikeys", body⟩
      match client.doJSON request server with
      | (.ok created, server) => finish created server diags [⟨request, .ok created⟩]
      | (.error err, server) =>
        if legacyFallback err then
          let (legacyBody, legacyDiags) := apiKeyRequestBody plan "Permissions" ""
          if HasError (diags ++ legacyDiags) then
            ⟨diags ++ legacyDiags, .untouched, server, [⟨request, .error err⟩]⟩
          else
            let legacyRequest : Request := ⟨MethodPost, "/api/apikeys", legacyBody⟩
            match client.doJSON legacyRequest server with
            | (.ok created, server) =>
              finish created server (diags ++ legacyDiags)
                [⟨request, .error err⟩, ⟨legacyRequest, .ok created⟩]
            | (.error err2, server) =>
              ⟨diags ++ legacyDiags ++ [Diagnostic.errorOf "Failed to create Seq API key" err2],
                .untouched, server, [⟨request, .error err⟩, ⟨legacyRequest, .error err2⟩]⟩
        else
          ⟨diags ++ [Diagnostic.errorOf "Failed to create Seq API key" err],
            .untouched, server, [⟨request, .error err⟩]⟩

/-- The method `APIKeyResource.Read`. -/
def Read {σ : Type} (rt : GoRuntime) (r : APIKeyResource σ) (server : σ) (state : APIKeyModel) :
    Outcome σ :=
  match r.client with
  | none => ⟨[errNotConfigured], .untouched, server, []⟩
  | some client =>
    if state.ID.IsNull || state.ID.IsUnknown then ⟨[], .removed, server, []⟩
    else
      let path := "/api/apikeys/" ++ state.ID.ValueString
      let request : Request := ⟨MethodGet, path, none⟩
      match client.doJSON request server with
      | (.error err, server) =>
        match asHTTPError err with
        | some httpErr =>
          if httpErr.StatusCode = StatusNotFound then ⟨[], .removed, server, [⟨request, .error err⟩]⟩
          else
            ⟨[Diagnostic.errorOf "Failed to read Seq API key" err], .untouched, server,
              [⟨request, .error err⟩]⟩
        | none =>
          ⟨[Diagnostic.errorOf "Failed to read Seq API key" err], .untouched, server,
            [⟨request, .error err⟩]⟩
      | (.ok got, server) =>
        let newState := state
        let newState := applyAPIKeyResponse rt newState got
        let newState := if got.Token = "" then { newState with Token := state.Token } else newState
        ⟨(stateSet newState).1, (stateSet newState).2, server, [⟨request, .ok got⟩]⟩

/-- The method `APIKeyResource.Update`. -/
def Update {σ : Type} (rt : GoRuntime) (r : APIKeyResource σ) (server : σ) (plan : APIKeyModel)
    (state : APIKeyModel) : Outcome σ :=
  match r.client with
  | none => ⟨[errNotConfigured], .untouched, server, []⟩
  | some client =>
    if state.ID.IsNull || state.ID.IsUnknown then
      ⟨[Diagnostic.error "Missing id" "Cannot update API key without an id in state"],
        .untouched, server, []⟩
    else
      let apiKeyID := state.ID.ValueString
      let (body, diags) := apiKeyRequestBody plan "AssignedPermissions" apiKeyID
      if HasError diags then ⟨diags, .untouched, server, []⟩
      else
        let finish := fun (updated : apiKeyResponse) (server : σ) (diagnostics : List Diagnostic)
            (exchanges : List Exchange) =>
          let newState := plan
          let newState := { newState with ID := state.ID }
          let newState := applyAPIKeyResponse rt newState updated
          let newState :=
            if updated.Token = "" then { newState with Token := state.Token } else newState
          let newState :=
            if newState.OwnerID.IsUnknown then { newState with OwnerID := TFString.null }
            else newState
          let newState :=
            if newState.Token.IsUnknown then { newState with Token := TFString.null }
            else newState
          (⟨diagnostics ++ (stateSet newState).1, (stateSet newState).2, server, exchanges⟩ :
            Outcome σ)
        let path := "/api/apikeys/" ++ apiKeyID
        let request : Request := ⟨MethodPut, path, body⟩
        match client.doJSON request server with
        | (.ok updated, server) => finish updated server diags [⟨request, .ok updated⟩]
        | (.error err, server) =>
          if legacyFallback err then
            let (legacyBody, legacyDiags) := apiKeyRequestBody plan "Permissions" apiKeyID
            if HasError (diags ++ legacyDiags) then
              ⟨diags ++ legacyDiags, .untouched, server, [⟨request, .error err⟩]⟩
            else
              let legacyRequest : Request := ⟨MethodPut, path, legacyBody⟩
              match client.doJSON legacyRequest server with
              | (.ok updated, server) =>
                finish updated server (diags ++ legacyDiags)
                [⟨request, .error err⟩, ⟨legacyRequest, .ok updated⟩]
              | (.error err2, server) =>
                ⟨diags ++ legacyDiags ++ [Diagnostic.errorOf "Failed to update Seq API key" err2],
                  .untouched, server, [⟨request, .error err⟩, ⟨legacyRequest, .error err2⟩]⟩
          else
            ⟨diags ++ [Diagnostic.errorOf "Failed to update Seq API key" err],
              .untouched, server, [⟨request, .error err⟩]⟩

/-- The method `APIKeyResource.Delete`. -/
def Delete {σ : Type} (r : APIKeyResource σ) (server : σ) (state : APIKeyModel) : Outcome σ :=
  match r.client with
  | none => ⟨[errNotConfigured], .untouched, server, []⟩
  | some client =>
    if state.ID.IsNull || state.ID.IsUnknown then ⟨[], .untouched, server, []⟩
    else
      let path := "/api/apikeys/" ++ state.ID.ValueString
      let request : Request := ⟨MethodDelete, path, none⟩
      match client.doJSON request server with
      | (.error err, server) =>
        match asHTTPError err with
        | some httpErr =>
          if httpErr.StatusCode = StatusNotFound then ⟨[], .untouched, server, [⟨request, .error err⟩]⟩
          else
            ⟨[Diagnostic.errorOf "Failed to delete Seq API key" err], .untouched, server,
              [⟨request, .error err⟩]⟩
        | none =>
          ⟨[Diagnostic.errorOf "Failed to delete Seq API key" err], .untouched, server,
            [⟨request, .error err⟩]⟩
      | (.ok deleted, server) => ⟨[], .untouched, server, [⟨request, .ok deleted⟩]⟩

/-! ## Closed forms and predicates used to state the properties -/

/-- The state an operation handed back, when it set one. -/
def Outcome.returned {σ : Type} (o : Outcome σ) : Option APIKeyModel :=
  match o.State with
  | .set m => some m
  | _ => none

/-- Whether the set repeats no element, as every set value that Terraform hands
over; a null or unknown set has no elements. -/
def TFSet.distinct : TFSet → Bool
  | .value elems => !repeatsElement elems
  | _ => true

/-- Whether the permission list of the response, under either field name, repeats no entry. -/
def apiKeyResponse.distinctPermissions (resp : apiKeyResponse) : Bool :=
  match resp.AssignedPermissions, resp.Permissions with
  | some perms, _ => !repeatsElement (perms.map TFString.value)
  | none, some perms => !repeatsElement (perms.map TFString.value)
  | none, none => true

/-- Whether one of the declared fields of the model (title, owner, permissions,
minimum level, filter, applied properties) or its token is unknown. -/
def APIKeyModel.declaredPending (m : APIKeyModel) : Bool :=
  m.Title.IsUnknown || m.OwnerID.IsUnknown || m.Permissions.IsUnknown ||
    m.MinimumLevel.IsUnknown || m.Filter.IsUnknown || m.AppliedProperties.IsUnknown ||
    m.Token.IsUnknown

/-- Whether any field of the model is unknown. -/
def APIKeyModel.hasPending (m : APIKeyModel) : Bool :=
  m.ID.IsUnknown || m.declaredPending

/-- Whether every value of the mapping is a known string, so that `ElementsAs`
converts it to `map[string]string`; a null or unknown mapping is not converted at all. -/
def TFMap.elementsKnown : TFMap → Bool
  | .value entries => (elementsAsStringMap entries).isSome
  | _ => true

/-- The two fixes that follow the merge in Create and Update: an unknown
`OwnerID` or `Token` becomes null. -/
def resolveComputed (st : APIKeyModel) : APIKeyModel :=
  { st with
    OwnerID := if st.OwnerID.IsUnknown then TFString.null else st.OwnerID
    Token := if st.Token.IsUnknown then TFString.null else st.Token }

/-- The state Update hands back for a decoded response: the plan with the
tracked id, merged, the tracked token kept when the response has none, and the
computed fields resolved. -/
def updatedState (rt : GoRuntime) (plan state : APIKeyModel) (updated : apiKeyResponse) :
    APIKeyModel :=
  let merged := applyAPIKeyResponse rt { plan with ID := state.ID } updated
  resolveComputed (if updated.Token = "" then { merged with Token := state.Token } else merged)

/-- The body of apiKeyRequestBody before the permission list is stored: title, id and owner. -/
def bodyBase (plan : APIKeyModel) (id : String) : Body :=
  let body : Body := [("Title", BodyValue.string plan.Title.ValueString)]
  let body := if id ≠ "" then mapSet body "Id" (BodyValue.string id) else body
  if !plan.OwnerID.IsNull && !plan.OwnerID.IsUnknown && plan.OwnerID.ValueString ≠ "" then
    mapSet body "OwnerId" (BodyValue.string plan.OwnerID.ValueString)
  else body

/-- The settings object of apiKeyRequestBody before the property list is stored: level and filter. -/
def settingsBase (plan : APIKeyModel) : Body :=
  let inputSettings : Body := []
  let inputSettings :=
    if !plan.MinimumLevel.IsNull && !plan.MinimumLevel.IsUnknown then
      mapSet inputSettings "MinimumLevel" (BodyValue.string plan.MinimumLevel.ValueString)
    else inputSettings
  if !plan.Filter.IsNull && !plan.Filter.IsUnknown then
    mapSet inputSettings "Filter" (BodyValue.object
      [("Filter", BodyValue.string plan.Filter.ValueString),
       ("FilterNonStrict", BodyValue.string plan.Filter.ValueString)])
  else inputSettings

/-- The last step of apiKeyRequestBody: the settings object is stored when it is not empty. -/
def withSettings (body inputSettings : Body) : Body :=
  if inputSettings.length > 0 then mapSet body "InputSettings" (BodyValue.object inputSettings)
  else body

/-- The property list apiKeyRequestBody builds from the converted mapping. -/
def propertyList (propsMap : List (String × String)) : BodyValue :=
  BodyValue.objects
    (propsMap.map fun nv => [("Name", BodyValue.string nv.1), ("Value", BodyValue.string nv.2)])

/-- The result is an `HTTPError` with status 400 whose message contains "AssignedPermissions". -/
def RejectsPrimaryField (result : Except ClientError apiKeyResponse) : Prop :=
  ∃ e : HTTPError, result = Except.error (ClientError.http e) ∧ e.StatusCode = 400 ∧
    stringsContains e.Message "AssignedPermissions" = true

/-- The schema fallback of a write, as observed on its outcome `out`: there are
two bodies, the first carrying `perms` under "AssignedPermissions" only and the
second under "Permissions" only, such that
* the first request of `out` carries the first body;
* a second request is issued exactly when the first result rejects the primary field;
* the second request, when issued, carries the second body;
* no third request is issued;
* any other first error is reported, with no state set and no second request. -/
def FallbackProtocol {σ : Type} (client : Client σ) (server : σ) (method path : String)
    (perms : List String) (summary : String) (out : Outcome σ) : Prop :=
  ∃ body legacyBody : Body,
    mapGet body "AssignedPermissions" = some (BodyValue.strings perms) ∧
    mapGet body "Permissions" = none ∧
    mapGet legacyBody "Permissions" = some (BodyValue.strings perms) ∧
    mapGet legacyBody "AssignedPermissions" = none ∧
    out.requests.head? = some ⟨method, path, some body⟩ ∧
    (2 ≤ out.requests.length ↔
      RejectsPrimaryField (client.doJSON ⟨method, path, some body⟩ server).1) ∧
    (2 ≤ out.requests.length →
      out.requests = [⟨method, path, some body⟩, ⟨method, path, some legacyBody⟩]) ∧
    out.requests.length ≤ 2 ∧
    (∀ err : ClientError,
      (client.doJSON ⟨method, path, some body⟩ server).1 = Except.error err →
      ¬ RejectsPrimaryField (Except.error err) →
      out.Diagnostics = [Diagnostic.errorOf summary err] ∧
      out.State = StateEffect.untouched ∧
      out.requests = [⟨method, path, some body⟩])

/-! ## Concrete inputs used for evaluation -/

/-- A runtime for concrete evaluations: an unrepresentable conversion gives the
least `int64`; the two renderings give the empty string. -/
def sampleRuntime : GoRuntime :=
  ⟨fun _ => -(2 ^ 63 : Int), fun _ => "", fun _ => ""⟩

/-- A tracked model in which every field holds a known value. -/
def sampleState : APIKeyModel :=
  { ID := .value "apikey-1"
    Title := .value "k"
    Token := .value "secret"
    OwnerID := .value "user-1"
    Permissions := .value [.value "Read", .value "Write"]
    MinimumLevel := .value "Warning"
    Filter := .value "Old = 1"
    AppliedProperties := .value [("Application", .value "MyApp")] }

/-- A desired model as Create receives it: title and permissions declared, the
computed fields unknown, no settings. -/
def samplePlan : APIKeyModel :=
  { ID := .unknown
    Title := .value "k"
    Token := .unknown
    OwnerID := .unknown
    Permissions := .value [.value "Read", .value "Write"]
    MinimumLevel := .null
    Filter := .null
    AppliedProperties := .null }

/-- A response that carries nothing: the zero value of `apiKeyResponse`. -/
def zeroResponse : apiKeyResponse :=
  { ID := "", Title := "", Token := "", OwnerID := "",
    AssignedPermissions := none, Permissions := none, InputSettings := none }

/-- A response that carries an id and nothing else. -/
def idResponse : apiKeyResponse :=
  { zeroResponse with ID := "apikey-1" }

/-- A response whose settings object holds only the given filter descriptor. -/
def filterResponse (strict nonStrict : String) : apiKeyResponse :=
  { zeroResponse with
    InputSettings := some
      { AppliedProperties := [], Filter := some ⟨strict, nonStrict⟩, MinimumLevel := none } }

/-- A client that answers every call with the same result and keeps no state. -/
def constClient (result : Except ClientError apiKeyResponse) : Client Unit :=
  ⟨fun _ server => (result, server)⟩

/-- A server of an older release: it refuses a body with the key
"AssignedPermissions" and accepts every other call; its state counts the calls. -/
def legacyServer : Client Nat :=
  ⟨fun request calls =>
    match request.body with
    | some body =>
      match mapGet body "AssignedPermissions" with
      | some _ =>
        (.error (.http ⟨400, "Unrecognized property AssignedPermissions"⟩), calls + 1)
      | none => (.ok idResponse, calls + 1)
    | none => (.ok idResponse, calls + 1)⟩

/-- A response whose permission list holds "Read" twice. -/
def repeatedPermissionResponse : apiKeyResponse :=
  { zeroResponse with ID := "apikey-1", AssignedPermissions := some ["Read", "Read"] }

/-- The error of a server that does not know the requested record. -/
def notFound : ClientError :=
  ClientError.http ⟨404, "Not Found"⟩

/-- The error of a server that fails internally. -/
def serverFailure : ClientError :=
  ClientError.http ⟨500, "Internal Server Error"⟩

/-- A response that carries an id and a title but no token. -/
def tokenlessResponse : apiKeyResponse :=
  { zeroResponse with ID := "apikey-1", Title := "renamed" }

/-- A response that carries an id and a token. -/
def tokenResponse : apiKeyResponse :=
  { zeroResponse with ID := "apikey-1", Token := "fresh" }

/-- The settings object apiKeyRequestBody builds once the applied properties
are converted: level, filter and, when the mapping is present, the property list. -/
def requestSettings (plan : APIKeyModel) : Body :=
  match plan.AppliedProperties with
  | .value entries =>
    mapSet (settingsBase plan) "AppliedProperties"
      (propertyList (entries.map fun kv => (kv.1, kv.2.ValueString)))
  | _ => settingsBase plan

/-- The desired model of the request-body test with settings: level, filter and two properties. -/
def settingsPlan : APIKeyModel :=
  { ID := .unknown
    Title := .value "test-key"
    Token := .unknown
    OwnerID := .null
    Permissions := .value [.value "Ingest"]
    MinimumLevel := .value "Warning"
    Filter := .value "@Level = 'Error'"
    AppliedProperties :=
      .value [("Application", .value "MyApp"), ("Environment", .value "Production")] }

/-- The body that apiKeyRequestBody builds for `settingsPlan` on create. -/
def settingsBody : Body :=
  [("Title", .string "test-key"),
   ("AssignedPermissions", .strings ["Ingest"]),
   ("InputSettings", .object
     [("MinimumLevel", .string "Warning"),
      ("Filter", .object
        [("Filter", .string "@Level = 'Error'"), ("FilterNonStrict", .string "@Level = 'Error'")]),
      ("AppliedProperties", .objects
        [[("Name", .string "Application"), ("Value", .string "MyApp")],
         [("Name", .string "Environment"), ("Value", .string "Production")]])])]

/-- The number of pairs in the property list of a body, when it has one. -/
def appliedPropertyCount (body : Body) : Option Nat :=
  match mapGet body "InputSettings" with
  | some (.object settings) =>
    match mapGet settings "AppliedProperties" with
    | some (.objects pairs) => some pairs.length
    | _ => none
  | _ => none

/-- The string stored under a key of a body, when it is a string. -/
def bodyString (body : Body) (key : String) : Option String :=
  match mapGet body key with
  | some (.string s) => some s
  | _ => none

/-- The decoding of a request value into a Go `string`; only a JSON string decodes. -/
def decodeString : BodyValue → Option String
  | .string s => some s
  | _ => none

/-- The decoding of a request object into `descriptiveFilterPart`, as
`encoding/json` does it: a slot that is missing stays the empty string. -/
def decodeFilter : BodyValue → Option descriptiveFilterPart
  | .object fields =>
    some ⟨((mapGet fields "Filter").bind decodeString).getD "",
      ((mapGet fields "FilterNonStrict").bind decodeString).getD ""⟩
  | _ => none

/-- The decoding of one Name/Value object into `eventPropertyPart`. A string
value decodes to a string; the bodies built by apiKeyRequestBody hold no other
value, and any other decodes to nil here. -/
def decodeProperty (fields : Body) : eventPropertyPart :=
  ⟨((mapGet fields "Name").bind decodeString).getD "",
    match mapGet fields "Value" with
    | some (.string s) => AnyValue.string s
    | _ => AnyValue.nil⟩

/-- The decoding of a settings object of a request into `inputSettingsPart`:
what a response holds when the server returns the settings object unchanged. -/
def settingsAsResponse : BodyValue → Option inputSettingsPart
  | .object fields =>
    some
      { AppliedProperties :=
          match mapGet fields "AppliedProperties" with
          | some (.objects pairs) => pairs.map decodeProperty
          | _ => []
        Filter := (mapGet fields "Filter").bind decodeFilter
        MinimumLevel := (mapGet fields "MinimumLevel").bind decodeString }
  | _ => none

/-- The settings of a response that returns the settings object of the request
body unchanged; nil when the body has none. -/
def echoedSettings (body : Body) : Option inputSettingsPart :=
  (mapGet body "InputSettings").bind settingsAsResponse

/-- The keys of a mapping, in its order. -/
def mapKeys {α : Type} (m : List (String × α)) : List String :=
  m.map Prod.fst

/-- A response that carries nothing but the settings object of the given body, unchanged. -/
def settingsEcho (body : Body) : apiKeyResponse :=
  { zeroResponse with InputSettings := echoedSettings body }

/-- A desired model whose filter is the empty string and whose applied
properties are the empty mapping. -/
def emptySettingsPlan : APIKeyModel :=
  { samplePlan with Filter := .value "", AppliedProperties := .value [] }

/-- The body that apiKeyRequestBody builds for `emptySettingsPlan` on create. -/
def emptySettingsBody : Body :=
  [("Title", .string "k"),
   ("AssignedPermissions", .strings ["Read", "Write"]),
   ("InputSettings", .object
     [("Filter", .object [("Filter", .string ""), ("FilterNonStrict", .string "")]),
      ("AppliedProperties", .objects [])])]

/-- A response whose settings hold the single property "Version" with the
number 1.0, in its IEEE form 2^52 * 2^(-52). -/
def versionResponse : apiKeyResponse :=
  { zeroResponse with
    InputSettings := some
      { AppliedProperties :=
          [⟨"Version", AnyValue.float64 (Float64.finite false 4503599627370496 (-52))⟩]
        Filter := none
        MinimumLevel := none } }

/-- The permission list a response carries, under either field name. -/
def apiKeyResponse.permissionList (resp : apiKeyResponse) : Option (List String) :=
  match resp.AssignedPermissions with
  | some perms => some perms
  | none => resp.Permissions

/-- Create followed by Read of the state Create returned, on the server state
Create left behind; `none` when either of them sets no state. -/
def createThenRead {σ : Type} (rt : GoRuntime) (r : APIKeyResource σ) (server : σ)
    (plan : APIKeyModel) : Option APIKeyModel :=
  let created := Create rt r server plan
  match created.returned with
  | some tracked => (Read rt r created.server tracked).returned
  | none => none

/-- The list of strings stored under a key of a body, when it is one. -/
def bodyStrings (body : Body) (key : String) : Option (List String) :=
  match mapGet body key with
  | some (.strings xs) => some xs
  | _ => none

/-- A server that keeps the last record posted: it answers a POST with a
record under the id "apikey-1" carrying the posted title, the posted
permission list and the given token, and answers any other call for the path
of the stored record with that record. -/
def echoServer (token : String) : Client (Option apiKeyResponse) :=
  ⟨fun request stored =>
    if request.method = MethodPost then
      match request.body with
      | some body =>
        let record : apiKeyResponse :=
          { ID := "apikey-1"
            Title := (bodyString body "Title").getD ""
            Token := token
            OwnerID := ""
            AssignedPermissions := bodyStrings body "AssignedPermissions"
            Permissions := none
            InputSettings := none }
        (.ok record, some record)
      | none => (.error (.http ⟨400, "Bad Request"⟩), stored)
    else
      match stored with
      | some record =>
        if request.path = "/api/apikeys/" ++ record.ID then (.ok record, stored)
        else (.error (.http ⟨404, "Not Found"⟩), stored)
      | none => (.error (.http ⟨404, "Not Found"⟩), stored)⟩

/-- The record `echoServer` keeps for the sample plan. -/
def echoedRecord (token : String) : apiKeyResponse :=
  { ID := "apikey-1"
    Title := "k"
    Token := token
    OwnerID := ""
    AssignedPermissions := some ["Read", "Write"]
    Permissions := none
    InputSettings := none }

/-! ## The response merge, field by field -/

set_option maxHeartbeats 1000000 in
/-- The merge in closed form: every field of the result, written from the
response and the prior value of the same field. -/
theorem applyAPIKeyResponse_eq (rt : GoRuntime) (state : APIKeyModel) (resp : apiKeyResponse) :
    applyAPIKeyResponse rt state resp =
      { ID := if resp.ID = "" then state.ID else TFString.value resp.ID
        Title := if resp.Title = "" then state.Title else TFString.value resp.Title
        Token := if resp.Token = "" then state.Token else TFString.value resp.Token
        OwnerID := if resp.OwnerID = "" then state.OwnerID else TFString.value resp.OwnerID
        Permissions :=
          match resp.AssignedPermissions, resp.Permissions with
          | some p, _ => TFSet.value (p.map TFString.value)
          | none, some p => TFSet.value (p.map TFString.value)
          | none, none => state.Permissions
        MinimumLevel :=
          match resp.InputSettings with
          | none => TFString.null
          | some settings =>
            match settings.MinimumLevel with
            | none => TFString.null
            | some level => if level = "" then TFString.null else TFString.value level
        Filter :=
          match resp.InputSettings with
          | none => TFString.null
          | some settings =>
            match settings.Filter with
            | none => TFString.null
            | some f =>
              if f.Filter = "" then TFString.null
              else if f.FilterNonStrict = "" then TFString.value f.Filter
              else TFString.value f.FilterNonStrict
        AppliedProperties :=
          match resp.InputSettings with
          | none => TFMap.null
          | some settings =>
            if settings.AppliedProperties.length > 0 then
              TFMap.value (buildPropsMap rt settings.AppliedProperties [])
            else TFMap.null } := by
  obtain ⟨sid, stitle, stoken, sowner, sperms, sml, sfl, sap⟩ := state
  obtain ⟨rid, rtitle, rtoken, rowner, rap, rp, ris⟩ := resp
  unfold applyAPIKeyResponse
  by_cases h1 : rid = "" <;> by_cases h2 : rtitle = "" <;> by_cases h3 : rtoken = "" <;>
    by_cases h4 : rowner = "" <;> cases rap <;> cases rp <;>
    simp only [h1, h2, h3, h4, ne_eq, not_true_eq_false, not_false_eq_true, if_true, if_false,
      stringSliceToAttrValues] <;>
    (cases ris with
     | none => rfl
     | some settings =>
       obtain ⟨props, filt, ml⟩ := settings
       cases ml with
       | none =>
         cases filt with
         | none => simp only []; split <;> rfl
         | some f =>
           simp only []
           by_cases h5 : f.Filter = "" <;> by_cases h6 : f.FilterNonStrict = "" <;>
             simp only [h5, h6, ne_eq, not_true_eq_false, not_false_eq_true, if_true, if_false] <;>
             split <;> rfl
       | some level =>
         by_cases h7 : level = "" <;>
         cases filt with
         | none =>
           simp only [h7, ne_eq, not_true_eq_false, not_false_eq_true, if_true, if_false]
           split <;> rfl
         | some f =>
           by_cases h5 : f.Filter = "" <;> by_cases h6 : f.FilterNonStrict = "" <;>
             simp only [h5, h6, h7, ne_eq, not_true_eq_false, not_false_eq_true, if_true,
               if_false] <;>
             split <;> rfl)

/-! ## Maps and request bodies -/

theorem mapGet_mapSet_same {α : Type} (m : List (String × α)) (k : String) (v : α) :
    mapGet (mapSet m k v) k = some v := by
  induction m with
  | nil => simp [mapSet, mapGet]
  | cons p rest ih =>
    obtain ⟨k1, v1⟩ := p
    by_cases h : k1 = k
    · simp [mapSet, mapGet, h]
    · simp [mapSet, mapGet, h, ih]

theorem mapGet_mapSet_ne {α : Type} (m : List (String × α)) (k k2 : String) (v : α)
    (h : k ≠ k2) : mapGet (mapSet m k v) k2 = mapGet m k2 := by
  induction m with
  | nil => simp [mapSet, mapGet, h]
  | cons p rest ih =>
    obtain ⟨k1, v1⟩ := p
    by_cases h1 : k1 = k
    · subst h1
      simp [mapSet, mapGet, h]
    · by_cases h2 : k1 = k2
      · subst h2
        simp [mapSet, mapGet, h1]
      · simp [mapSet, mapGet, h1, h2, ih]

theorem elementsAsStrings_values (perms : List String) :
    elementsAsStrings (perms.map TFString.value) = some perms := by
  induction perms with
  | nil => rfl
  | cons p rest ih => simp [elementsAsStrings, elementAsString, ih]

/-- The request body in closed form, by which of the two collections are present. -/
theorem apiKeyRequestBody_eq (plan : APIKeyModel) (field id : String) :
    apiKeyRequestBody plan field id =
      match plan.Permissions, plan.AppliedProperties with
      | .value elems, .value entries =>
        match elementsAsStrings elems, elementsAsStringMap entries with
        | some perms, some propsMap =>
          (some (withSettings (mapSet (bodyBase plan id) field (BodyValue.strings perms))
            (mapSet (settingsBase plan) "AppliedProperties" (propertyList propsMap))), [])
        | _, _ => (none, [Diagnostic.conversion])
      | .value elems, _ =>
        match elementsAsStrings elems with
        | some perms =>
          (some (withSettings (mapSet (bodyBase plan id) field (BodyValue.strings perms))
            (settingsBase plan)), [])
        | none => (none, [Diagnostic.conversion])
      | _, .value entries =>
        match elementsAsStringMap entries with
        | some propsMap =>
          (some (withSettings (bodyBase plan id)
            (mapSet (settingsBase plan) "AppliedProperties" (propertyList propsMap))), [])
        | none => (none, [Diagnostic.conversion])
      | _, _ => (some (withSettings (bodyBase plan id) (settingsBase plan)), []) := by
  obtain ⟨pid, ptitle, ptoken, powner, pperms, pml, pfl, pap⟩ := plan
  unfold apiKeyRequestBody
  cases pperms with
  | null => cases pap with
    | null => rfl
    | unknown => rfl
    | value entries =>
      dsimp only
      cases elementsAsStringMap entries <;> rfl
  | unknown => cases pap with
    | null => rfl
    | unknown => rfl
    | value entries =>
      dsimp only
      cases elementsAsStringMap entries <;> rfl
  | value elems =>
    cases pap with
    | null =>
      dsimp only
      cases elementsAsStrings elems <;> rfl
    | unknown =>
      dsimp only
      cases elementsAsStrings elems <;> rfl
    | value entries =>
      dsimp only
      cases elementsAsStrings elems <;> cases elementsAsStringMap entries <;> rfl

theorem mapGet_withSettings (body inputSettings : Body) (k : String)
    (hk : k ≠ "InputSettings") : mapGet (withSettings body inputSettings) k = mapGet body k := by
  unfold withSettings
  split
  · exact mapGet_mapSet_ne _ _ _ _ (fun h => hk h.symm)
  · rfl

theorem mapGet_bodyBase (plan : APIKeyModel) (id k : String)
    (h2 : k ≠ "Title") (h3 : k ≠ "Id") (h4 : k ≠ "OwnerId") :
    mapGet (bodyBase plan id) k = none := by
  have e2 : "Title" ≠ k := fun h => h2 h.symm
  have e3 : "Id" ≠ k := fun h => h3 h.symm
  have e4 : "OwnerId" ≠ k := fun h => h4 h.symm
  unfold bodyBase
  split_ifs <;> simp [mapGet_mapSet_ne, mapGet, e2, e3, e4]

/-- With the permission set present and every collection element known, a body
is built without diagnostics; it holds the list under `field` and nothing under
a key `other` that the function never writes. -/
theorem apiKeyRequestBody_built (plan : APIKeyModel) (field other id : String)
    (perms : List String)
    (hp : plan.Permissions = TFSet.value (perms.map TFString.value))
    (ha : plan.AppliedProperties.elementsKnown = true)
    (h1 : field ≠ "InputSettings") (h2 : other ≠ "Title") (h3 : other ≠ "Id")
    (h4 : other ≠ "OwnerId") (h5 : other ≠ "InputSettings") (h6 : field ≠ other) :
    ∃ body : Body, apiKeyRequestBody plan field id = (some body, []) ∧
      mapGet body field = some (BodyValue.strings perms) ∧ mapGet body other = none := by
  rw [apiKeyRequestBody_eq, hp]
  cases hap : plan.AppliedProperties with
  | null =>
    simp only [elementsAsStrings_values]
    exact ⟨_, rfl, by rw [mapGet_withSettings _ _ _ h1, mapGet_mapSet_same],
      by rw [mapGet_withSettings _ _ _ h5, mapGet_mapSet_ne _ _ _ _ h6,
        mapGet_bodyBase _ _ _ h2 h3 h4]⟩
  | unknown =>
    simp only [elementsAsStrings_values]
    exact ⟨_, rfl, by rw [mapGet_withSettings _ _ _ h1, mapGet_mapSet_same],
      by rw [mapGet_withSettings _ _ _ h5, mapGet_mapSet_ne _ _ _ _ h6,
        mapGet_bodyBase _ _ _ h2 h3 h4]⟩
  | value entries =>
    rw [hap] at ha
    obtain ⟨propsMap, hm⟩ := Option.isSome_iff_exists.mp ha
    simp only [elementsAsStrings_values, hm]
    exact ⟨_, rfl, by rw [mapGet_withSettings _ _ _ h1, mapGet_mapSet_same],
      by rw [mapGet_withSettings _ _ _ h5, mapGet_mapSet_ne _ _ _ _ h6,
        mapGet_bodyBase _ _ _ h2 h3 h4]⟩

/-! ## The write protocol -/

theorem legacyFallback_iff (err : ClientError) :
    legacyFallback err = true ↔ RejectsPrimaryField (Except.error err) := by
  cases err with
  | http e =>
    simp [legacyFallback, asHTTPError, RejectsPrimaryField, StatusBadRequest]
  | transport text =>
    simp [legacyFallback, asHTTPError, RejectsPrimaryField]

theorem Create_protocol {σ : Type} (rt : GoRuntime) (client : Client σ) (server : σ)
    (plan : APIKeyModel) (perms : List String)
    (hp : plan.Permissions = TFSet.value (perms.map TFString.value))
    (ha : plan.AppliedProperties.elementsKnown = true) :
    FallbackProtocol client server MethodPost "/api/apikeys" perms
      "Failed to create Seq API key" (Create rt ⟨some client⟩ server plan) := by
  obtain ⟨b1, hb1, g1, g2⟩ := apiKeyRequestBody_built plan "AssignedPermissions" "Permissions" ""
    perms hp ha (by decide) (by decide) (by decide) (by decide) (by decide) (by decide)
  obtain ⟨b2, hb2, g3, g4⟩ := apiKeyRequestBody_built plan "Permissions" "AssignedPermissions" ""
    perms hp ha (by decide) (by decide) (by decide) (by decide) (by decide) (by decide)
  refine ⟨b1, b2, g1, g2, g3, g4, ?_⟩
  simp only [Create, hb1, hb2, HasError, List.isEmpty, List.append_nil, Bool.not_true,
    Bool.false_eq_true, if_false, Outcome.requests]
  rcases h1 : client.doJSON ⟨MethodPost, "/api/apikeys", some b1⟩ server with ⟨res, s1⟩
  cases res with
  | ok created =>
    simp [RejectsPrimaryField]
  | error err =>
    simp only []
    cases hf : legacyFallback err
    · have hn : ¬ RejectsPrimaryField (Except.error err) := by
        rw [← legacyFallback_iff, hf]; simp
      simp [hn]
    · have hy : RejectsPrimaryField (Except.error err) := (legacyFallback_iff err).mp hf
      simp only [if_true]
      rcases h2 : client.doJSON ⟨MethodPost, "/api/apikeys", some b2⟩ s1 with ⟨res2, s2⟩
      cases res2 <;> simp [hy]

theorem Update_protocol {σ : Type} (rt : GoRuntime) (client : Client σ) (server : σ)
    (plan state : APIKeyModel) (perms : List String) (id : String)
    (hp : plan.Permissions = TFSet.value (perms.map TFString.value))
    (ha : plan.AppliedProperties.elementsKnown = true)
    (hid : state.ID = TFString.value id) :
    FallbackProtocol client server MethodPut ("/api/apikeys/" ++ id) perms
      "Failed to update Seq API key" (Update rt ⟨some client⟩ server plan state) := by
  obtain ⟨b1, hb1, g1, g2⟩ := apiKeyRequestBody_built plan "AssignedPermissions" "Permissions" id
    perms hp ha (by decide) (by decide) (by decide) (by decide) (by decide) (by decide)
  obtain ⟨b2, hb2, g3, g4⟩ := apiKeyRequestBody_built plan "Permissions" "AssignedPermissions" id
    perms hp ha (by decide) (by decide) (by decide) (by decide) (by decide) (by decide)
  refine ⟨b1, b2, g1, g2, g3, g4, ?_⟩
  simp only [Update, hid, TFString.IsNull, TFString.IsUnknown, TFString.ValueString, Bool.or_self,
    hb1, hb2, HasError, List.isEmpty, List.append_nil, Bool.not_true,
    Bool.false_eq_true, if_false, Outcome.requests]
  rcases h1 : client.doJSON ⟨MethodPut, "/api/apikeys/" ++ id, some b1⟩ server with ⟨res, s1⟩
  cases res with
  | ok updated =>
    simp [RejectsPrimaryField]
  | error err =>
    simp only []
    cases hf : legacyFallback err
    · have hn : ¬ RejectsPrimaryField (Except.error err) := by
        rw [← legacyFallback_iff, hf]; simp
      simp [hn]
    · have hy : RejectsPrimaryField (Except.error err) := (legacyFallback_iff err).mp hf
      simp only [if_true]
      rcases h2 : client.doJSON ⟨MethodPut, "/api/apikeys/" ++ id, some b2⟩ s1 with ⟨res2, s2⟩
      cases res2 <;> simp [hy]

/-! ## What the operations hand back -/

theorem resolve_split (st : APIKeyModel) :
    (if (if st.OwnerID.IsUnknown = true then { st with OwnerID := TFString.null }
          else st).Token.IsUnknown = true
      then { (if st.OwnerID.IsUnknown = true then { st with OwnerID := TFString.null }
              else st) with Token := TFString.null }
      else (if st.OwnerID.IsUnknown = true then { st with OwnerID := TFString.null } else st))
    = resolveComputed st := by
  simp only [resolveComputed]
  split <;> split <;> rfl

/-- The call `State.Set` either sets the model without a diagnostic or sets nothing. -/
theorem stateSet_cases (m : APIKeyModel) :
    stateSet m = ([], StateEffect.set m) ∨
    ((stateSet m).2 = StateEffect.untouched ∧ HasError (stateSet m).1 = true) := by
  unfold stateSet
  cases m.Permissions with
  | null => exact Or.inl rfl
  | unknown => exact Or.inl rfl
  | value elems =>
    simp only []
    split
    · exact Or.inr ⟨rfl, rfl⟩
    · exact Or.inl rfl

/-- The call `State.Set` sets every model whose permission set repeats no element. -/
theorem stateSet_distinct (m : APIKeyModel) (h : m.Permissions.distinct = true) :
    stateSet m = ([], StateEffect.set m) := by
  unfold stateSet
  cases hp : m.Permissions with
  | null => rfl
  | unknown => rfl
  | value elems =>
    rw [hp] at h
    simp only [TFSet.distinct, Bool.not_eq_true'] at h
    simp [h]

/-- Create either sets no state, or sets the merge of the plan with a decoded
response, computed fields resolved. -/
theorem Create_state_cases {σ : Type} (rt : GoRuntime) (r : APIKeyResource σ) (server : σ)
    (plan : APIKeyModel) :
    (Create rt r server plan).State = StateEffect.untouched ∨
    ∃ created, (Create rt r server plan).State
      = StateEffect.set (resolveComputed (applyAPIKeyResponse rt plan created)) := by
  rcases r with ⟨_ | client⟩
  · simp [Create]
  rcases hb : apiKeyRequestBody plan "AssignedPermissions" "" with ⟨body, diags⟩
  rcases hb2 : apiKeyRequestBody plan "Permissions" "" with ⟨body2, diags2⟩
  simp only [Create, hb, hb2]
  cases hd : HasError diags
  swap
  · simp
  simp only [Bool.false_eq_true, if_false]
  rcases h1 : client.doJSON ⟨MethodPost, "/api/apikeys", body⟩ server with ⟨res, s1⟩
  cases res with
  | ok c1 =>
    simp only [resolve_split]
    rcases stateSet_cases (resolveComputed (applyAPIKeyResponse rt plan c1)) with h | h
    · right
      exact ⟨c1, by rw [h]⟩
    · left
      exact h.1
  | error err =>
    simp only []
    cases hf : legacyFallback err
    · simp
    · simp only [if_true]
      cases hd2 : HasError (diags ++ diags2)
      swap
      · simp
      simp only [Bool.false_eq_true, if_false]
      rcases h2 : client.doJSON ⟨MethodPost, "/api/apikeys", body2⟩ s1 with ⟨res2, s2⟩
      cases res2 with
      | ok c2 =>
        simp only [resolve_split]
        rcases stateSet_cases (resolveComputed (applyAPIKeyResponse rt plan c2)) with h | h
        · right
          exact ⟨c2, by rw [h]⟩
        · left
          exact h.1
      | error e2 => simp

/-- When a call of Create was answered with a decoded response, the state of
Create is what `State.Set` made of the merge of the plan with that response,
computed fields resolved. -/
theorem Create_ok {σ : Type} (rt : GoRuntime) (r : APIKeyResource σ) (server : σ)
    (plan : APIKeyModel) (x : Exchange) (created : apiKeyResponse)
    (hx : x ∈ (Create rt r server plan).exchanges)
    (hok : x.result = Except.ok created) :
    (Create rt r server plan).State
      = (stateSet (resolveComputed (applyAPIKeyResponse rt plan created))).2 := by
  revert hx
  rcases r with ⟨_ | client⟩
  · simp [Create]
  rcases hb : apiKeyRequestBody plan "AssignedPermissions" "" with ⟨body, diags⟩
  rcases hb2 : apiKeyRequestBody plan "Permissions" "" with ⟨body2, diags2⟩
  simp only [Create, hb, hb2]
  cases hd : HasError diags
  swap
  · simp
  simp only [Bool.false_eq_true, if_false]
  rcases h1 : client.doJSON ⟨MethodPost, "/api/apikeys", body⟩ server with ⟨res, s1⟩
  cases res with
  | ok c1 =>
    simp only [List.mem_singleton]
    intro hx
    subst hx
    simp only [Except.ok.injEq] at hok
    subst hok
    simp only [resolve_split]
  | error err =>
    simp only []
    cases hf : legacyFallback err
    · simp only [Bool.false_eq_true, if_false, List.mem_singleton]
      intro hx
      subst hx
      cases hok
    · simp only [if_true]
      cases hd2 : HasError (diags ++ diags2)
      swap
      · simp only [if_true, List.mem_singleton]
        intro hx
        subst hx
        cases hok
      simp only [Bool.false_eq_true, if_false]
      rcases h2 : client.doJSON ⟨MethodPost, "/api/apikeys", body2⟩ s1 with ⟨res2, s2⟩
      cases res2 with
      | ok c2 =>
        simp only [List.mem_cons, List.mem_singleton, List.not_mem_nil, or_false]
        intro hx
        rcases hx with hx | hx
        · subst hx; cases hok
        · subst hx
          simp only [Except.ok.injEq] at hok
          subst hok
          simp only [resolve_split]
      | error e2 =>
        simp only [List.mem_cons, List.mem_singleton, List.not_mem_nil, or_false]
        intro hx
        rcases hx with hx | hx <;> (subst hx; cases hok)

/-- Update either sets no state, or the tracked id is known and it sets the
state computed from a decoded response. -/
theorem Update_state_cases {σ : Type} (rt : GoRuntime) (r : APIKeyResource σ) (server : σ)
    (plan state : APIKeyModel) :
    (Update rt r server plan state).State = StateEffect.untouched ∨
    ∃ updated, (state.ID.IsNull || state.ID.IsUnknown) = false ∧
      (Update rt r server plan state).State
        = StateEffect.set (updatedState rt plan state updated) := by
  rcases r with ⟨_ | client⟩
  · simp [Update]
  rcases hb : apiKeyRequestBody plan "AssignedPermissions" state.ID.ValueString with ⟨body, diags⟩
  rcases hb2 : apiKeyRequestBody plan "Permissions" state.ID.ValueString with ⟨body2, diags2⟩
  simp only [Update, hb, hb2]
  cases hid : (state.ID.IsNull || state.ID.IsUnknown)
  swap
  · simp
  simp only [Bool.false_eq_true, if_false]
  cases hd : HasError diags
  swap
  · simp
  simp only [Bool.false_eq_true, if_false]
  rcases h1 : client.doJSON ⟨MethodPut, "/api/apikeys/" ++ state.ID.ValueString, body⟩ server
    with ⟨res, s1⟩
  cases res with
  | ok c1 =>
    simp only [resolve_split]
    rcases stateSet_cases (updatedState rt plan state c1) with h | h
    · right
      exact ⟨c1, by simp, by simp only [updatedState] at h ⊢; rw [h]⟩
    · left
      simp only [updatedState] at h
      exact h.1
  | error err =>
    simp only []
    cases hf : legacyFallback err
    · simp
    · simp only [if_true]
      cases hd2 : HasError (diags ++ diags2)
      swap
      · simp
      simp only [Bool.false_eq_true, if_false]
      rcases h2 : client.doJSON ⟨MethodPut, "/api/apikeys/" ++ state.ID.ValueString, body2⟩ s1
        with ⟨res2, s2⟩
      cases res2 with
      | ok c2 =>
        simp only [resolve_split]
        rcases stateSet_cases (updatedState rt plan state c2) with h | h
        · right
          exact ⟨c2, by simp, by simp only [updatedState] at h ⊢; rw [h]⟩
        · left
          simp only [updatedState] at h
          exact h.1
      | error e2 => simp

/-- When a call of Update was answered with a decoded response, the state of
Update is what `State.Set` made of the state computed from that response. -/
theorem Update_ok {σ : Type} (rt : GoRuntime) (r : APIKeyResource σ) (server : σ)
    (plan state : APIKeyModel) (x : Exchange) (updated : apiKeyResponse)
    (hx : x ∈ (Update rt r server plan state).exchanges)
    (hok : x.result = Except.ok updated) :
    (Update rt r server plan state).State
      = (stateSet (updatedState rt plan state updated)).2 := by
  revert hx
  rcases r with ⟨_ | client⟩
  · simp [Update]
  rcases hb : apiKeyRequestBody plan "AssignedPermissions" state.ID.ValueString with ⟨body, diags⟩
  rcases hb2 : apiKeyRequestBody plan "Permissions" state.ID.ValueString with ⟨body2, diags2⟩
  simp only [Update, hb, hb2]
  cases hid : (state.ID.IsNull || state.ID.IsUnknown)
  swap
  · simp
  simp only [Bool.false_eq_true, if_false]
  cases hd : HasError diags
  swap
  · simp
  simp only [Bool.false_eq_true, if_false]
  rcases h1 : client.doJSON ⟨MethodPut, "/api/apikeys/" ++ state.ID.ValueString, body⟩ server
    with ⟨res, s1⟩
  cases res with
  | ok c1 =>
    simp only [List.mem_singleton]
    intro hx
    subst hx
    simp only [Except.ok.injEq] at hok
    subst hok
    simp only [updatedState, resolve_split]
  | error err =>
    simp only []
    cases hf : legacyFallback err
    · simp only [Bool.false_eq_true, if_false, List.mem_singleton]
      intro hx
      subst hx
      cases hok
    · simp only [if_true]
      cases hd2 : HasError (diags ++ diags2)
      swap
      · simp only [if_true, List.mem_singleton]
        intro hx
        subst hx
        cases hok
      simp only [Bool.false_eq_true, if_false]
      rcases h2 : client.doJSON ⟨MethodPut, "/api/apikeys/" ++ state.ID.ValueString, body2⟩ s1
        with ⟨res2, s2⟩
      cases res2 with
      | ok c2 =>
        simp only [List.mem_cons, List.mem_singleton, List.not_mem_nil, or_false]
        intro hx
        rcases hx with hx | hx
        · subst hx; cases hok
        · subst hx
          simp only [Except.ok.injEq] at hok
          subst hok
          simp only [updatedState, resolve_split]
      | error e2 =>
        simp only [List.mem_cons, List.mem_singleton, List.not_mem_nil, or_false]
        intro hx
        rcases hx with hx | hx <;> (subst hx; cases hok)

/-- When the call of Read was answered with a decoded response, the state of
Read is what `State.Set` made of the merge of the tracked state with that
response, the tracked token kept when the response has none. -/
theorem Read_ok {σ : Type} (rt : GoRuntime) (r : APIKeyResource σ) (server : σ)
    (state : APIKeyModel) (x : Exchange) (got : apiKeyResponse)
    (hx : x ∈ (Read rt r server state).exchanges) (hok : x.result = Except.ok got) :
    (Read rt r server state).State = (stateSet
      (if got.Token = "" then { applyAPIKeyResponse rt state got with Token := state.Token }
       else applyAPIKeyResponse rt state got)).2 := by
  revert hx
  rcases r with ⟨_ | client⟩
  · simp [Read]
  simp only [Read]
  split
  · simp
  · rcases hres : client.doJSON ⟨MethodGet, "/api/apikeys/" ++ state.ID.ValueString, none⟩ server
      with ⟨res, s1⟩
    cases res with
    | ok got2 =>
      simp only [List.mem_singleton]
      intro hx
      subst hx
      simp only [Except.ok.injEq] at hok
      subst hok
      rfl
    | error err =>
      simp only []
      intro hx
      have : x.result = Except.error err := by
        split at hx <;> (try split at hx) <;> simp at hx <;> simp [hx]
      rw [this] at hok
      cases hok

/-! ## Schema fallback of Create and Update -/

/-- C1: schema fallback of Create and of Update. The desired model has its
permission set present with the known strings `perms` (and every applied
property, if any, a known string), the tracked state of Update has a known id,
and the transport is arbitrary. Then for Create (POST to the collection) and
for Update (PUT to the path of the tracked id) the first request carries
`perms` under "AssignedPermissions" and has no "Permissions" key; a second
request is issued exactly when the first result is an `HTTPError` with status
400 whose message contains "AssignedPermissions", and it carries `perms` under
"Permissions" and has no "AssignedPermissions" key; there is never a third
request; any other first error is reported with no further request. -/
theorem write_schema_fallback {σ : Type} (rt : GoRuntime) (client : Client σ) (server : σ)
    (plan state : APIKeyModel) (perms : List String) (id : String)
    (hp : plan.Permissions = TFSet.value (perms.map TFString.value))
    (ha : plan.AppliedProperties.elementsKnown = true)
    (hid : state.ID = TFString.value id) :
    FallbackProtocol client server MethodPost "/api/apikeys" perms
      "Failed to create Seq API key" (Create rt ⟨some client⟩ server plan) ∧
    FallbackProtocol client server MethodPut ("/api/apikeys/" ++ id) perms
      "Failed to update Seq API key" (Update rt ⟨some client⟩ server plan state) :=
  ⟨Create_protocol rt client server plan perms hp ha,
    Update_protocol rt client server plan state perms id hp ha hid⟩

/-- Witness of C1: the sample plan written to a server of an older release,
which refuses the first body; Create then issues exactly two requests. -/
theorem write_schema_fallback_witness :
    samplePlan.Permissions = TFSet.value (["Read", "Write"].map TFString.value) ∧
    samplePlan.AppliedProperties.elementsKnown = true ∧
    sampleState.ID = TFString.value "apikey-1" ∧
    (Create sampleRuntime ⟨some legacyServer⟩ 0 samplePlan).requests.length = 2 ∧
    (Update sampleRuntime ⟨some legacyServer⟩ 0 samplePlan sampleState).requests.length = 2 ∧
    (FallbackProtocol legacyServer 0 MethodPost "/api/apikeys" ["Read", "Write"]
      "Failed to create Seq API key" (Create sampleRuntime ⟨some legacyServer⟩ 0 samplePlan) ∧
    FallbackProtocol legacyServer 0 MethodPut ("/api/apikeys/" ++ "apikey-1") ["Read", "Write"]
      "Failed to update Seq API key"
      (Update sampleRuntime ⟨some legacyServer⟩ 0 samplePlan sampleState)) :=
  ⟨rfl, rfl, rfl, by decide, by decide,
    write_schema_fallback sampleRuntime legacyServer 0 samplePlan sampleState ["Read", "Write"]
      "apikey-1" rfl rfl rfl⟩

/-! ## Pending fields after a write -/

theorem resolveComputed_known (st : APIKeyModel) :
    (resolveComputed st).OwnerID.IsUnknown = false ∧ (resolveComputed st).Token.IsUnknown = false := by
  constructor
  · cases h : st.OwnerID <;> simp [resolveComputed, h, TFString.IsUnknown]
  · cases h : st.Token <;> simp [resolveComputed, h, TFString.IsUnknown]

/-- After the merge the three settings are never unknown; the title and the
permission set are unknown only if they were before. -/
theorem applyAPIKeyResponse_known (rt : GoRuntime) (m : APIKeyModel) (resp : apiKeyResponse)
    (ht : m.Title.IsUnknown = false) (hp : m.Permissions.IsUnknown = false) :
    (applyAPIKeyResponse rt m resp).Title.IsUnknown = false ∧
    (applyAPIKeyResponse rt m resp).Permissions.IsUnknown = false ∧
    (applyAPIKeyResponse rt m resp).MinimumLevel.IsUnknown = false ∧
    (applyAPIKeyResponse rt m resp).Filter.IsUnknown = false ∧
    (applyAPIKeyResponse rt m resp).AppliedProperties.IsUnknown = false := by
  rw [applyAPIKeyResponse_eq]
  refine ⟨?_, ?_, ?_, ?_, ?_⟩
  · dsimp only
    split <;> first | exact ht | rfl
  · dsimp only
    split <;> first | exact hp | rfl
  · dsimp only
    split
    · rfl
    · split
      · rfl
      · split <;> rfl
  · dsimp only
    split
    · rfl
    · split
      · rfl
      · split
        · rfl
        · split <;> rfl
  · dsimp only
    split
    · rfl
    · split <;> rfl

theorem created_not_pending (rt : GoRuntime) (plan : APIKeyModel) (created : apiKeyResponse)
    (ht : plan.Title.IsUnknown = false) (hp : plan.Permissions.IsUnknown = false) :
    (resolveComputed (applyAPIKeyResponse rt plan created)).declaredPending = false := by
  obtain ⟨k1, k2, k3, k4, k5⟩ := applyAPIKeyResponse_known rt plan created ht hp
  obtain ⟨r1, r2⟩ := resolveComputed_known (applyAPIKeyResponse rt plan created)
  simp only [APIKeyModel.declaredPending, r1, r2, Bool.or_false]
  simp only [resolveComputed, k1, k2, k3, k4, k5, Bool.or_false]

theorem updated_not_pending (rt : GoRuntime) (plan state : APIKeyModel)
    (updated : apiKeyResponse)
    (hid : (state.ID.IsNull || state.ID.IsUnknown) = false)
    (ht : plan.Title.IsUnknown = false) (hp : plan.Permissions.IsUnknown = false) :
    (updatedState rt plan state updated).hasPending = false := by
  obtain ⟨k1, k2, k3, k4, k5⟩ :=
    applyAPIKeyResponse_known rt { plan with ID := state.ID } updated ht hp
  have hidu : state.ID.IsUnknown = false := by
    cases h : state.ID <;> simp_all [TFString.IsNull, TFString.IsUnknown]
  have kid : (applyAPIKeyResponse rt { plan with ID := state.ID } updated).ID.IsUnknown = false := by
    rw [applyAPIKeyResponse_eq]
    dsimp only
    split <;> first | exact hidu | rfl
  unfold updatedState
  dsimp only
  split
  · obtain ⟨r1, r2⟩ := resolveComputed_known
      { applyAPIKeyResponse rt { plan with ID := state.ID } updated with Token := state.Token }
    simp only [APIKeyModel.hasPending, APIKeyModel.declaredPending, r1, r2, Bool.or_false]
    simp only [resolveComputed, k1, k2, k3, k4, k5, kid, Bool.or_false]
  · obtain ⟨r1, r2⟩ := resolveComputed_known
      (applyAPIKeyResponse rt { plan with ID := state.ID } updated)
    simp only [APIKeyModel.hasPending, APIKeyModel.declaredPending, r1, r2, Bool.or_false]
    simp only [resolveComputed, k1, k2, k3, k4, k5, kid, Bool.or_false]

/-- When neither the title nor the permission set of the desired model is
unknown, a state set by Create has none of title, owner, permissions, minimum
level, filter, applied properties and token unknown, and a state set by Update
has no unknown field at all: the owner and the token are resolved by both, and
Update takes the id from the tracked state. -/
theorem write_resolves_pending {σ : Type} (rt : GoRuntime) (r : APIKeyResource σ) (server : σ)
    (plan state : APIKeyModel)
    (ht : plan.Title.IsUnknown = false) (hp : plan.Permissions.IsUnknown = false) :
    (∀ st, (Create rt r server plan).returned = some st → st.declaredPending = false) ∧
    (∀ st, (Update rt r server plan state).returned = some st → st.hasPending = false) := by
  constructor
  · intro st hst
    rcases Create_state_cases rt r server plan with h | ⟨created, h⟩
    · simp [Outcome.returned, h] at hst
    · simp only [Outcome.returned, h, Option.some.injEq] at hst
      subst hst
      exact created_not_pending rt plan created ht hp
  · intro st hst
    rcases Update_state_cases rt r server plan state with h | ⟨updated, hid, h⟩
    · simp [Outcome.returned, h] at hst
    · simp only [Outcome.returned, h, Option.some.injEq] at hst
      subst hst
      exact updated_not_pending rt plan state updated hid ht hp

/-- C2 fails on the code: the desired model is the sample plan as Create
receives it (id, owner and token not yet known) and the server answers the
POST with success and an empty body, decoded to the zero record. Create reports
no error and returns a state whose owner and token were resolved to null but
whose id is still unknown. -/
theorem create_leaves_id_unknown :
    samplePlan.ID = TFString.unknown ∧
    (Create sampleRuntime ⟨some (constClient (.ok zeroResponse))⟩ () samplePlan).Diagnostics
      = [] ∧
    (Create sampleRuntime ⟨some (constClient (.ok zeroResponse))⟩ () samplePlan).returned.map
      APIKeyModel.ID = some TFString.unknown ∧
    (Create sampleRuntime ⟨some (constClient (.ok zeroResponse))⟩ () samplePlan).returned.map
      APIKeyModel.hasPending = some true ∧
    (Create sampleRuntime ⟨some (constClient (.ok zeroResponse))⟩ () samplePlan).returned.map
      APIKeyModel.OwnerID = some TFString.null ∧
    (Create sampleRuntime ⟨some (constClient (.ok zeroResponse))⟩ () samplePlan).returned.map
      APIKeyModel.Token = some TFString.null := by
  decide

/-! ## The token -/

/-- The merged permission set repeats no element when neither the prior set
nor the permission list of the response does. -/
theorem applyAPIKeyResponse_distinct (rt : GoRuntime) (m : APIKeyModel) (resp : apiKeyResponse)
    (hm : m.Permissions.distinct = true) (hr : resp.distinctPermissions = true) :
    (applyAPIKeyResponse rt m resp).Permissions.distinct = true := by
  rw [applyAPIKeyResponse_eq]
  unfold apiKeyResponse.distinctPermissions at hr
  cases ha : resp.AssignedPermissions <;> cases hl : resp.Permissions <;>
    simp only [ha, hl] at hr ⊢ <;> first | exact hm | exact hr

/-- C3: the response has an empty token. When a call of Update is answered with
it and the tracked token is a value or null (a tracked state holds no
unknown), every state Update returns has the tracked token; Update does return
a state whenever `State.Set` accepts it, that is when neither the permission
set of the plan nor the permission list of the response repeats an element;
and when it returns none the state is left untouched, tracked token included.
The same holds for Read with the permission set of the tracked state, for
every tracked token. -/
theorem token_kept_when_withheld {σ : Type} (rt : GoRuntime) (r : APIKeyResource σ) (server : σ)
    (plan state : APIKeyModel) (resp : apiKeyResponse) (htoken : resp.Token = "") :
    (∀ x ∈ (Update rt r server plan state).exchanges, x.result = Except.ok resp →
      state.Token.IsUnknown = false →
      (∀ st, (Update rt r server plan state).returned = some st → st.Token = state.Token) ∧
      (plan.Permissions.distinct = true → resp.distinctPermissions = true →
        (Update rt r server plan state).returned.map APIKeyModel.Token = some state.Token) ∧
      ((Update rt r server plan state).returned = none →
        (Update rt r server plan state).State = StateEffect.untouched)) ∧
    (∀ x ∈ (Read rt r server state).exchanges, x.result = Except.ok resp →
      (∀ st, (Read rt r server state).returned = some st → st.Token = state.Token) ∧
      (state.Permissions.distinct = true → resp.distinctPermissions = true →
        (Read rt r server state).returned.map APIKeyModel.Token = some state.Token) ∧
      ((Read rt r server state).returned = none →
        (Read rt r server state).State = StateEffect.untouched)) := by
  constructor
  · intro x hx hok htracked
    have hstate := Update_ok rt r server plan state x resp hx hok
    have htok : (updatedState rt plan state resp).Token = state.Token := by
      simp only [updatedState, htoken, if_true, resolveComputed, htracked, Bool.false_eq_true,
        if_false]
    have hperm : (updatedState rt plan state resp).Permissions
        = (applyAPIKeyResponse rt { plan with ID := state.ID } resp).Permissions := by
      simp only [updatedState, htoken, if_true, resolveComputed]
    refine ⟨?_, ?_, ?_⟩
    · intro st hst
      rcases stateSet_cases (updatedState rt plan state resp) with h | h
      · rw [Outcome.returned, hstate, h] at hst
        simp only [Option.some.injEq] at hst
        rw [← hst, htok]
      · rw [Outcome.returned, hstate, h.1] at hst
        cases hst
    · intro hp hr
      have hd : (updatedState rt plan state resp).Permissions.distinct = true := by
        rw [hperm]
        exact applyAPIKeyResponse_distinct rt _ resp hp hr
      rw [Outcome.returned, hstate, stateSet_distinct _ hd]
      simp only [Option.map_some', htok]
    · intro hnone
      rcases stateSet_cases (updatedState rt plan state resp) with h | h
      · rw [Outcome.returned, hstate, h] at hnone
        cases hnone
      · rw [hstate, h.1]
  · intro x hx hok
    have hstate := Read_ok rt r server state x resp hx hok
    simp only [htoken, if_true] at hstate
    refine ⟨?_, ?_, ?_⟩
    · intro st hst
      rcases stateSet_cases
        { applyAPIKeyResponse rt state resp with Token := state.Token } with h | h
      · rw [Outcome.returned, hstate, h] at hst
        simp only [Option.some.injEq] at hst
        rw [← hst]
      · rw [Outcome.returned, hstate, h.1] at hst
        cases hst
    · intro hp hr
      have hd : ({ applyAPIKeyResponse rt state resp with Token := state.Token } :
          APIKeyModel).Permissions.distinct = true :=
        applyAPIKeyResponse_distinct rt state resp hp hr
      rw [Outcome.returned, hstate, stateSet_distinct _ hd]
      rfl
    · intro hnone
      rcases stateSet_cases
        { applyAPIKeyResponse rt state resp with Token := state.Token } with h | h
      · rw [Outcome.returned, hstate, h] at hnone
        cases hnone
      · rw [hstate, h.1]

/-- Witness of C3: the tracked state holds the token "secret" and the server
answers both calls with a record that has no token; a record that repeats a
permission makes `State.Set` refuse, and the state is left untouched. -/
theorem token_kept_when_withheld_witness :
    tokenlessResponse.Token = "" ∧ sampleState.Token = TFString.value "secret" ∧
    (Update sampleRuntime ⟨some (constClient (.ok tokenlessResponse))⟩ () samplePlan
      sampleState).returned.map APIKeyModel.Token = some (TFString.value "secret") ∧
    (Read sampleRuntime ⟨some (constClient (.ok tokenlessResponse))⟩ ()
      sampleState).returned.map APIKeyModel.Token = some (TFString.value "secret") ∧
    (Read sampleRuntime ⟨some (constClient (.ok repeatedPermissionResponse))⟩ ()
      sampleState).returned = none ∧
    (Read sampleRuntime ⟨some (constClient (.ok repeatedPermissionResponse))⟩ ()
      sampleState).State = StateEffect.untouched :=
  ⟨rfl, rfl,
    ((token_kept_when_withheld sampleRuntime ⟨some (constClient (.ok tokenlessResponse))⟩ ()
      samplePlan sampleState tokenlessResponse rfl).1 _ (List.Mem.head _) rfl rfl).2.1
      (by decide) (by decide),
    ((token_kept_when_withheld sampleRuntime ⟨some (constClient (.ok tokenlessResponse))⟩ ()
      samplePlan sampleState tokenlessResponse rfl).2 _ (List.Mem.head _) rfl).2.1
      (by decide) (by decide),
    by decide,
    ((token_kept_when_withheld sampleRuntime
      ⟨some (constClient (.ok repeatedPermissionResponse))⟩ () samplePlan sampleState
      repeatedPermissionResponse rfl).2 _ (List.Mem.head _) rfl).2.2 (by decide)⟩

/-! ## Settings, filter and permissions in the response merge -/

/-- C4: when the response carries no settings object, the merge leaves
`MinimumLevel`, `Filter` and `AppliedProperties` null, whatever the prior state held. -/
theorem applyAPIKeyResponse_no_settings (rt : GoRuntime) (state : APIKeyModel)
    (resp : apiKeyResponse) (h : resp.InputSettings = none) :
    (applyAPIKeyResponse rt state resp).MinimumLevel = TFString.null ∧
    (applyAPIKeyResponse rt state resp).Filter = TFString.null ∧
    (applyAPIKeyResponse rt state resp).AppliedProperties = TFMap.null := by
  rw [applyAPIKeyResponse_eq]
  simp [h]

/-- Witness of C4: a prior state holding all three settings, merged with the zero response. -/
theorem applyAPIKeyResponse_no_settings_witness :
    sampleState.MinimumLevel = TFString.value "Warning" ∧
    sampleState.Filter = TFString.value "Old = 1" ∧
    (applyAPIKeyResponse sampleRuntime sampleState zeroResponse).MinimumLevel = TFString.null ∧
    (applyAPIKeyResponse sampleRuntime sampleState zeroResponse).Filter = TFString.null ∧
    (applyAPIKeyResponse sampleRuntime sampleState zeroResponse).AppliedProperties = TFMap.null :=
  ⟨rfl, rfl, applyAPIKeyResponse_no_settings sampleRuntime sampleState zeroResponse rfl⟩

/-- C5, as stated, fails: a descriptor with an empty strict expression and the
non-strict expression "Level = Error" merges to a null filter, not to the
non-strict expression. -/
theorem filter_nonstrict_only_is_dropped :
    (applyAPIKeyResponse sampleRuntime sampleState (filterResponse "" "Level = Error")).Filter
        = TFString.null ∧
    (applyAPIKeyResponse sampleRuntime sampleState (filterResponse "" "Level = Error")).Filter
        ≠ TFString.value "Level = Error" := by
  rw [applyAPIKeyResponse_eq]
  simp [filterResponse]

/-- C5, amended: for a response that carries a settings object, the merged
filter is null when the descriptor is missing or its strict expression is
empty; otherwise it is the non-strict expression when that is non-empty, and
the strict expression when the non-strict one is empty. -/
theorem applyAPIKeyResponse_filter_rule (rt : GoRuntime) (state : APIKeyModel)
    (resp : apiKeyResponse) (settings : inputSettingsPart)
    (h : resp.InputSettings = some settings) :
    (applyAPIKeyResponse rt state resp).Filter =
      match settings.Filter with
      | none => TFString.null
      | some f =>
        if f.Filter = "" then TFString.null
        else if f.FilterNonStrict = "" then TFString.value f.Filter
        else TFString.value f.FilterNonStrict := by
  rw [applyAPIKeyResponse_eq]
  simp only [h]

/-- Witness of C5, amended: a descriptor with only a strict expression merges to it. -/
theorem applyAPIKeyResponse_filter_rule_witness :
    (applyAPIKeyResponse sampleRuntime sampleState (filterResponse "@Level = 'Error'" "")).Filter
      = TFString.value "@Level = 'Error'" := by
  have h := applyAPIKeyResponse_filter_rule sampleRuntime sampleState
    (filterResponse "@Level = 'Error'" "") _ rfl
  rw [h]
  decide

/-- C6: when the descriptor has both expressions non-empty, the merged filter
is the non-strict expression. -/
theorem applyAPIKeyResponse_prefers_nonstrict (rt : GoRuntime) (state : APIKeyModel)
    (resp : apiKeyResponse) (settings : inputSettingsPart) (f : descriptiveFilterPart)
    (hs : resp.InputSettings = some settings) (hf : settings.Filter = some f)
    (hstrict : f.Filter ≠ "") (hnon : f.FilterNonStrict ≠ "") :
    (applyAPIKeyResponse rt state resp).Filter = TFString.value f.FilterNonStrict := by
  rw [applyAPIKeyResponse_eq]
  simp only [hs, hf, hstrict, hnon, if_false]

/-- Witness of C6: strict "@Level = 'Error'" and non-strict "Level = Error"
merge to "Level = Error". -/
theorem applyAPIKeyResponse_prefers_nonstrict_witness :
    (applyAPIKeyResponse sampleRuntime sampleState
      (filterResponse "@Level = 'Error'" "Level = Error")).Filter
      = TFString.value "Level = Error" :=
  applyAPIKeyResponse_prefers_nonstrict sampleRuntime sampleState
    (filterResponse "@Level = 'Error'" "Level = Error") _ ⟨"@Level = 'Error'", "Level = Error"⟩
    rfl rfl (by decide) (by decide)

/-- C7: the merged permission set is the list under `AssignedPermissions` when
that is non-nil (empty or not, whatever `Permissions` holds), and the list under
`Permissions` when `AssignedPermissions` is nil and `Permissions` is not; in both
cases it replaces the prior set. Only when both are nil is the prior set kept. -/
theorem applyAPIKeyResponse_permissions (rt : GoRuntime) (state : APIKeyModel)
    (resp : apiKeyResponse) :
    (∀ assigned, resp.AssignedPermissions = some assigned →
      (applyAPIKeyResponse rt state resp).Permissions
        = TFSet.value (assigned.map TFString.value)) ∧
    (∀ legacy, resp.AssignedPermissions = none → resp.Permissions = some legacy →
      (applyAPIKeyResponse rt state resp).Permissions
        = TFSet.value (legacy.map TFString.value)) ∧
    (resp.AssignedPermissions = none → resp.Permissions = none →
      (applyAPIKeyResponse rt state resp).Permissions = state.Permissions) := by
  rw [applyAPIKeyResponse_eq]
  refine ⟨?_, ?_, ?_⟩
  · intro assigned h
    simp only [h]
  · intro legacy h1 h2
    simp only [h1, h2]
  · intro h1 h2
    simp only [h1, h2]

/-- Witness of C7: the prior set is {"Read","Write"}; an empty list under
`AssignedPermissions` wins over ["Ingest"] under `Permissions` and empties the
set; with `AssignedPermissions` nil the set becomes {"Ingest"}. -/
theorem applyAPIKeyResponse_permissions_witness :
    sampleState.Permissions = TFSet.value [TFString.value "Read", TFString.value "Write"] ∧
    (applyAPIKeyResponse sampleRuntime sampleState
      { zeroResponse with AssignedPermissions := some [], Permissions := some ["Ingest"] }
      ).Permissions = TFSet.value [] ∧
    (applyAPIKeyResponse sampleRuntime sampleState
      { zeroResponse with Permissions := some ["Ingest"] }).Permissions
        = TFSet.value [TFString.value "Ingest"] :=
  ⟨rfl,
    (applyAPIKeyResponse_permissions sampleRuntime sampleState
      { zeroResponse with AssignedPermissions := some [], Permissions := some ["Ingest"] }).1
      [] rfl,
    (applyAPIKeyResponse_permissions sampleRuntime sampleState
      { zeroResponse with Permissions := some ["Ingest"] }).2.1 ["Ingest"] rfl rfl⟩

/-! ## The token on create -/

/-- C8: a call of Create is answered with a decoded response, and the desired
model has its token unknown or null, as every desired model on create (the
token is computed by the server). Then every state Create returns has the
response token when that is non-empty and a null token when it is empty; and
Create does return a state whenever `State.Set` accepts it, that is when
neither the permission set of the model nor the permission list of the
response repeats an element. -/
theorem create_token_rule {σ : Type} (rt : GoRuntime) (r : APIKeyResource σ) (server : σ)
    (plan : APIKeyModel) (x : Exchange) (created : apiKeyResponse)
    (hx : x ∈ (Create rt r server plan).exchanges) (hok : x.result = Except.ok created)
    (hplan : plan.Token = TFString.unknown ∨ plan.Token = TFString.null) :
    (∀ st, (Create rt r server plan).returned = some st →
      st.Token = if created.Token = "" then TFString.null
        else TFString.value created.Token) ∧
    (plan.Permissions.distinct = true → created.distinctPermissions = true →
      (Create rt r server plan).returned.map APIKeyModel.Token =
        some (if created.Token = "" then TFString.null else TFString.value created.Token)) := by
  have hstate := Create_ok rt r server plan x created hx hok
  have htok : (resolveComputed (applyAPIKeyResponse rt plan created)).Token
      = if created.Token = "" then TFString.null else TFString.value created.Token := by
    rw [applyAPIKeyResponse_eq]
    simp only [resolveComputed]
    by_cases h : created.Token = ""
    · simp only [h, if_true]
      rcases hplan with hp | hp <;> rw [hp] <;> rfl
    · simp only [h, if_false]
      rfl
  constructor
  · intro st hst
    rcases stateSet_cases (resolveComputed (applyAPIKeyResponse rt plan created)) with h | h
    · rw [Outcome.returned, hstate, h] at hst
      simp only [Option.some.injEq] at hst
      rw [← hst, htok]
    · rw [Outcome.returned, hstate, h.1] at hst
      cases hst
  · intro hp hr
    have hd : (resolveComputed (applyAPIKeyResponse rt plan created)).Permissions.distinct
        = true := applyAPIKeyResponse_distinct rt plan created hp hr
    rw [Outcome.returned, hstate, stateSet_distinct _ hd]
    simp only [Option.map_some', htok]

/-- Witness of C8: the plan has its token unknown; a response with the token
"fresh" gives "fresh", a response without token gives null. -/
theorem create_token_rule_witness :
    samplePlan.Token = TFString.unknown ∧
    (Create sampleRuntime ⟨some (constClient (.ok tokenResponse))⟩ () samplePlan).returned.map
      APIKeyModel.Token = some (TFString.value "fresh") ∧
    (Create sampleRuntime ⟨some (constClient (.ok idResponse))⟩ () samplePlan).returned.map
      APIKeyModel.Token = some TFString.null :=
  ⟨rfl,
    (create_token_rule sampleRuntime ⟨some (constClient (.ok tokenResponse))⟩ () samplePlan _
      tokenResponse (List.Mem.head _) rfl (Or.inl rfl)).2 (by decide) (by decide),
    (create_token_rule sampleRuntime ⟨some (constClient (.ok idResponse))⟩ () samplePlan _
      idResponse (List.Mem.head _) rfl (Or.inl rfl)).2 (by decide) (by decide)⟩

/-! ## Records the server does not know -/

/-- C9: for a tracked state with a known id, Delete issues exactly one request,
the DELETE of that id; when it is answered with an `HTTPError` of status 404
Delete reports no error; when it is answered with any other error (another
status, or a transport failure) Delete reports that error. -/
theorem Delete_not_found_is_success {σ : Type} (client : Client σ) (server : σ)
    (state : APIKeyModel) (id : String) (hid : state.ID = TFString.value id) :
    (Delete ⟨some client⟩ server state).requests
        = [⟨MethodDelete, "/api/apikeys/" ++ id, none⟩] ∧
    (∀ e : HTTPError,
      (client.doJSON ⟨MethodDelete, "/api/apikeys/" ++ id, none⟩ server).1
          = Except.error (ClientError.http e) →
      e.StatusCode = 404 →
      (Delete ⟨some client⟩ server state).Diagnostics = [] ∧
      HasError (Delete ⟨some client⟩ server state).Diagnostics = false) ∧
    (∀ err : ClientError,
      (client.doJSON ⟨MethodDelete, "/api/apikeys/" ++ id, none⟩ server).1 = Except.error err →
      (∀ e : HTTPError, err = ClientError.http e → e.StatusCode ≠ 404) →
      (Delete ⟨some client⟩ server state).Diagnostics
          = [Diagnostic.errorOf "Failed to delete Seq API key" err] ∧
      HasError (Delete ⟨some client⟩ server state).Diagnostics = true) := by
  simp only [Delete, hid, TFString.IsNull, TFString.IsUnknown, TFString.ValueString,
    Bool.or_self, Bool.false_eq_true, if_false, Outcome.requests]
  rcases hres : client.doJSON ⟨MethodDelete, "/api/apikeys/" ++ id, none⟩ server with ⟨res, s1⟩
  cases res with
  | ok deleted => simp
  | error err =>
    cases err with
    | http e =>
      by_cases h404 : e.StatusCode = 404
      · simp [asHTTPError, StatusNotFound, h404, HasError]
      · simp [asHTTPError, StatusNotFound, h404, HasError]
    | transport text => simp [asHTTPError, HasError]

/-- Witness of C9: a server that answers 404 and a server that answers 500. -/
theorem Delete_not_found_is_success_witness :
    sampleState.ID = TFString.value "apikey-1" ∧
    (Delete ⟨some (constClient (.error notFound))⟩ () sampleState).requests.length = 1 ∧
    (Delete ⟨some (constClient (.error notFound))⟩ () sampleState).Diagnostics = [] ∧
    (Delete ⟨some (constClient (.error serverFailure))⟩ () sampleState).Diagnostics
      = [Diagnostic.errorOf "Failed to delete Seq API key" serverFailure] :=
  ⟨rfl,
    by rw [(Delete_not_found_is_success (constClient (.error notFound)) () sampleState
      "apikey-1" rfl).1]; rfl,
    ((Delete_not_found_is_success (constClient (.error notFound)) () sampleState
      "apikey-1" rfl).2.1 ⟨404, "Not Found"⟩ rfl rfl).1,
    ((Delete_not_found_is_success (constClient (.error serverFailure)) () sampleState
      "apikey-1" rfl).2.2 serverFailure rfl
      (by intro e h; simp only [serverFailure, ClientError.http.injEq] at h; subst h; decide)).1⟩

/-- C10: for a tracked state with a known id, when the GET is answered with an
`HTTPError` of status 404 Read removes the resource from the state and reports
no error; when it is answered with any other error (another status, or a
transport failure) Read reports that error and leaves the state as it was. -/
theorem Read_not_found_removes {σ : Type} (rt : GoRuntime) (client : Client σ) (server : σ)
    (state : APIKeyModel) (id : String) (hid : state.ID = TFString.value id) :
    (Read rt ⟨some client⟩ server state).requests
        = [⟨MethodGet, "/api/apikeys/" ++ id, none⟩] ∧
    (∀ e : HTTPError,
      (client.doJSON ⟨MethodGet, "/api/apikeys/" ++ id, none⟩ server).1
          = Except.error (ClientError.http e) →
      e.StatusCode = 404 →
      (Read rt ⟨some client⟩ server state).State = StateEffect.removed ∧
      (Read rt ⟨some client⟩ server state).Diagnostics = []) ∧
    (∀ err : ClientError,
      (client.doJSON ⟨MethodGet, "/api/apikeys/" ++ id, none⟩ server).1 = Except.error err →
      (∀ e : HTTPError, err = ClientError.http e → e.StatusCode ≠ 404) →
      (Read rt ⟨some client⟩ server state).Diagnostics
          = [Diagnostic.errorOf "Failed to read Seq API key" err] ∧
      HasError (Read rt ⟨some client⟩ server state).Diagnostics = true ∧
      (Read rt ⟨some client⟩ server state).State = StateEffect.untouched) := by
  simp only [Read, hid, TFString.IsNull, TFString.IsUnknown, TFString.ValueString,
    Bool.or_self, Bool.false_eq_true, if_false, Outcome.requests]
  rcases hres : client.doJSON ⟨MethodGet, "/api/apikeys/" ++ id, none⟩ server with ⟨res, s1⟩
  cases res with
  | ok got => simp
  | error err =>
    cases err with
    | http e =>
      by_cases h404 : e.StatusCode = 404
      · simp [asHTTPError, StatusNotFound, h404]
      · simp [asHTTPError, StatusNotFound, h404, HasError]
    | transport text => simp [asHTTPError, HasError]

/-- Witness of C10: a server that answers 404, and a connection that fails. -/
theorem Read_not_found_removes_witness :
    sampleState.ID = TFString.value "apikey-1" ∧
    (Read sampleRuntime ⟨some (constClient (.error notFound))⟩ () sampleState).State
      = StateEffect.removed ∧
    (Read sampleRuntime ⟨some (constClient (.error notFound))⟩ () sampleState).Diagnostics = [] ∧
    (Read sampleRuntime ⟨some (constClient (.error (.transport "connection refused")))⟩ ()
      sampleState).State = StateEffect.untouched :=
  ⟨rfl,
    ((Read_not_found_removes sampleRuntime (constClient (.error notFound)) () sampleState
      "apikey-1" rfl).2.1 ⟨404, "Not Found"⟩ rfl rfl).1,
    ((Read_not_found_removes sampleRuntime (constClient (.error notFound)) () sampleState
      "apikey-1" rfl).2.1 ⟨404, "Not Found"⟩ rfl rfl).2,
    ((Read_not_found_removes sampleRuntime
      (constClient (.error (.transport "connection refused"))) () sampleState
      "apikey-1" rfl).2.2 (.transport "connection refused") rfl (by simp)).2.2⟩

/-! ## The shape of a built request body -/

theorem elementsAsStringMap_eq (entries : List (String × TFString))
    (propsMap : List (String × String)) (h : elementsAsStringMap entries = some propsMap) :
    propsMap = entries.map fun kv => (kv.1, kv.2.ValueString) := by
  induction entries generalizing propsMap with
  | nil =>
    simp only [elementsAsStringMap, Option.some.injEq] at h
    subst h
    rfl
  | cons kv rest ih =>
    obtain ⟨k, e⟩ := kv
    cases e with
    | null => simp [elementsAsStringMap, elementAsString] at h
    | unknown => simp [elementsAsStringMap, elementAsString] at h
    | value s =>
      cases hr : elementsAsStringMap rest with
      | none => simp [elementsAsStringMap, elementAsString, hr] at h
      | some ss =>
        simp only [elementsAsStringMap, elementAsString, hr, Option.some.injEq] at h
        subst h
        simp [ih ss hr, TFString.ValueString]

theorem mapGet_bodyBase_title (plan : APIKeyModel) (id : String) :
    mapGet (bodyBase plan id) "Title" = some (BodyValue.string plan.Title.ValueString) := by
  unfold bodyBase
  split_ifs <;> simp [mapGet_mapSet_ne, mapGet]

theorem mapGet_bodyBase_id (plan : APIKeyModel) (id : String) :
    mapGet (bodyBase plan id) "Id" = if id = "" then none else some (BodyValue.string id) := by
  unfold bodyBase
  split_ifs <;> simp_all [mapGet_mapSet_ne, mapGet_mapSet_same, mapGet, mapSet]

/-- A built body is the base body, with or without the permission list under
`field`, followed by the settings step. -/
theorem apiKeyRequestBody_shape (plan : APIKeyModel) (field id : String) (body : Body)
    (diags : List Diagnostic) (h : apiKeyRequestBody plan field id = (some body, diags)) :
    ∃ inner : Body, body = withSettings inner (requestSettings plan) ∧
      (inner = bodyBase plan id ∨
        ∃ perms, inner = mapSet (bodyBase plan id) field (BodyValue.strings perms)) := by
  rw [apiKeyRequestBody_eq] at h
  unfold requestSettings
  cases hp : plan.Permissions with
  | null =>
    cases ha : plan.AppliedProperties with
    | null => simp only [hp, ha, Prod.mk.injEq, Option.some.injEq] at h; exact ⟨_, h.1.symm, Or.inl rfl⟩
    | unknown => simp only [hp, ha, Prod.mk.injEq, Option.some.injEq] at h; exact ⟨_, h.1.symm, Or.inl rfl⟩
    | value entries =>
      simp only [hp, ha] at h
      cases hm : elementsAsStringMap entries with
      | none => simp [hm] at h
      | some propsMap =>
        simp only [hm, Prod.mk.injEq, Option.some.injEq] at h
        rw [elementsAsStringMap_eq entries propsMap hm] at h
        exact ⟨_, h.1.symm, Or.inl rfl⟩
  | unknown =>
    cases ha : plan.AppliedProperties with
    | null => simp only [hp, ha, Prod.mk.injEq, Option.some.injEq] at h; exact ⟨_, h.1.symm, Or.inl rfl⟩
    | unknown => simp only [hp, ha, Prod.mk.injEq, Option.some.injEq] at h; exact ⟨_, h.1.symm, Or.inl rfl⟩
    | value entries =>
      simp only [hp, ha] at h
      cases hm : elementsAsStringMap entries with
      | none => simp [hm] at h
      | some propsMap =>
        simp only [hm, Prod.mk.injEq, Option.some.injEq] at h
        rw [elementsAsStringMap_eq entries propsMap hm] at h
        exact ⟨_, h.1.symm, Or.inl rfl⟩
  | value elems =>
    cases he : elementsAsStrings elems with
    | none =>
      cases ha : plan.AppliedProperties <;> simp [hp, ha, he] at h
    | some perms =>
      cases ha : plan.AppliedProperties with
      | null =>
        simp only [hp, ha, he, Prod.mk.injEq, Option.some.injEq] at h
        exact ⟨_, h.1.symm, Or.inr ⟨perms, rfl⟩⟩
      | unknown =>
        simp only [hp, ha, he, Prod.mk.injEq, Option.some.injEq] at h
        exact ⟨_, h.1.symm, Or.inr ⟨perms, rfl⟩⟩
      | value entries =>
        simp only [hp, ha, he] at h
        cases hm : elementsAsStringMap entries with
        | none => simp [hm] at h
        | some propsMap =>
          simp only [hm, Prod.mk.injEq, Option.some.injEq] at h
          rw [elementsAsStringMap_eq entries propsMap hm] at h
          exact ⟨_, h.1.symm, Or.inr ⟨perms, rfl⟩⟩

theorem mapSet_length_pos {α : Type} (m : List (String × α)) (k : String) (v : α) :
    0 < (mapSet m k v).length := by
  cases m with
  | nil => simp [mapSet]
  | cons p rest =>
    obtain ⟨k1, v1⟩ := p
    simp only [mapSet]
    split <;> simp

theorem settingsBase_level (plan : APIKeyModel) :
    mapGet (settingsBase plan) "MinimumLevel" =
      match plan.MinimumLevel with
      | .value level => some (BodyValue.string level)
      | _ => none := by
  unfold settingsBase
  cases plan.MinimumLevel <;> cases plan.Filter <;>
    simp [TFString.IsNull, TFString.IsUnknown, TFString.ValueString, mapGet, mapSet]

theorem settingsBase_filter (plan : APIKeyModel) :
    mapGet (settingsBase plan) "Filter" =
      match plan.Filter with
      | .value e =>
        some (BodyValue.object
          [("Filter", BodyValue.string e), ("FilterNonStrict", BodyValue.string e)])
      | _ => none := by
  unfold settingsBase
  cases plan.MinimumLevel <;> cases plan.Filter <;>
    simp [TFString.IsNull, TFString.IsUnknown, TFString.ValueString, mapGet, mapSet]

theorem settingsBase_properties (plan : APIKeyModel) :
    mapGet (settingsBase plan) "AppliedProperties" = none := by
  unfold settingsBase
  cases plan.MinimumLevel <;> cases plan.Filter <;>
    simp [TFString.IsNull, TFString.IsUnknown, TFString.ValueString, mapGet, mapSet]

theorem settingsBase_length (plan : APIKeyModel) :
    0 < (settingsBase plan).length ↔
      (∃ level, plan.MinimumLevel = TFString.value level) ∨
      (∃ e, plan.Filter = TFString.value e) := by
  unfold settingsBase
  cases plan.MinimumLevel <;> cases plan.Filter <;>
    simp [TFString.IsNull, TFString.IsUnknown, TFString.ValueString, mapSet]

theorem requestSettings_length (plan : APIKeyModel) :
    0 < (requestSettings plan).length ↔
      (∃ level, plan.MinimumLevel = TFString.value level) ∨
      (∃ e, plan.Filter = TFString.value e) ∨
      (∃ entries, plan.AppliedProperties = TFMap.value entries) := by
  unfold requestSettings
  cases ha : plan.AppliedProperties with
  | null => simp [settingsBase_length]
  | unknown => simp [settingsBase_length]
  | value entries => simp [mapSet_length_pos]

/-- The lookup of "InputSettings" in a built body: the settings object when it
is not empty, nothing otherwise. -/
theorem apiKeyRequestBody_settings (plan : APIKeyModel) (field id : String) (body : Body)
    (diags : List Diagnostic) (hfield : field ≠ "InputSettings")
    (h : apiKeyRequestBody plan field id = (some body, diags)) :
    mapGet body "InputSettings" =
      if 0 < (requestSettings plan).length then some (BodyValue.object (requestSettings plan))
      else none := by
  obtain ⟨inner, rfl, hinner⟩ := apiKeyRequestBody_shape plan field id body diags h
  have hnone : mapGet inner "InputSettings" = none := by
    rcases hinner with rfl | ⟨perms, rfl⟩
    · exact mapGet_bodyBase plan id _ (by decide) (by decide) (by decide)
    · rw [mapGet_mapSet_ne _ _ _ _ hfield]
      exact mapGet_bodyBase plan id _ (by decide) (by decide) (by decide)
  unfold withSettings
  split
  · rw [mapGet_mapSet_same]
  · exact hnone

/-! ## The settings object and the id of a request body -/

/-- C13: in a body built by apiKeyRequestBody under either permission field
name, the key "InputSettings" is present exactly when the minimum level, the
filter or the applied properties of the model is present; the object under it
has "MinimumLevel" equal to the declared level exactly when the level is
present, under "Filter" a descriptor whose "Filter" and "FilterNonStrict" both
equal the declared expression exactly when the filter is present, and under
"AppliedProperties" one Name/Value pair per entry of the declared mapping, in
its order, exactly when the mapping is present. -/
theorem requestBody_inputSettings (plan : APIKeyModel) (field id : String) (body : Body)
    (diags : List Diagnostic)
    (hfield : field = "AssignedPermissions" ∨ field = "Permissions")
    (hbuilt : apiKeyRequestBody plan field id = (some body, diags)) :
    ((mapGet body "InputSettings").isSome = true ↔
      (∃ level, plan.MinimumLevel = TFString.value level) ∨
      (∃ e, plan.Filter = TFString.value e) ∨
      (∃ entries, plan.AppliedProperties = TFMap.value entries)) ∧
    (∀ found, mapGet body "InputSettings" = some found →
      ∃ settings : Body, found = BodyValue.object settings ∧
        mapGet settings "MinimumLevel" =
          (match plan.MinimumLevel with
            | .value level => some (BodyValue.string level)
            | _ => none) ∧
        mapGet settings "Filter" =
          (match plan.Filter with
            | .value e =>
              some (BodyValue.object
                [("Filter", BodyValue.string e), ("FilterNonStrict", BodyValue.string e)])
            | _ => none) ∧
        (match plan.AppliedProperties with
          | .value entries =>
            ∃ pairs : List Body,
              mapGet settings "AppliedProperties" = some (BodyValue.objects pairs) ∧
              pairs.length = entries.length ∧
              pairs = entries.map fun kv =>
                [("Name", BodyValue.string kv.1), ("Value", BodyValue.string kv.2.ValueString)]
          | _ => mapGet settings "AppliedProperties" = none)) := by
  have hne : field ≠ "InputSettings" := by
    rcases hfield with rfl | rfl <;> decide
  have hlook := apiKeyRequestBody_settings plan field id body diags hne hbuilt
  constructor
  · rw [hlook, ← requestSettings_length]
    split <;> simp_all
  · intro found hfound
    rw [hlook] at hfound
    split at hfound
    · simp only [Option.some.injEq] at hfound
      refine ⟨requestSettings plan, hfound.symm, ?_, ?_, ?_⟩
      · unfold requestSettings
        cases plan.AppliedProperties
        · exact settingsBase_level plan
        · exact settingsBase_level plan
        · rw [mapGet_mapSet_ne _ _ _ _ (by decide)]
          exact settingsBase_level plan
      · unfold requestSettings
        cases plan.AppliedProperties
        · exact settingsBase_filter plan
        · exact settingsBase_filter plan
        · rw [mapGet_mapSet_ne _ _ _ _ (by decide)]
          exact settingsBase_filter plan
      · unfold requestSettings
        cases plan.AppliedProperties with
        | null => exact settingsBase_properties plan
        | unknown => exact settingsBase_properties plan
        | value entries =>
          refine ⟨_, mapGet_mapSet_same _ _ _, ?_, ?_⟩
          · simp
          · simp [List.map_map, Function.comp_def]
    · cases hfound

/-- Witness of C13: the model of the request-body test with a level, a filter
and two declared properties; the property list of its body has length 2. -/
theorem requestBody_inputSettings_witness :
    apiKeyRequestBody settingsPlan "AssignedPermissions" "" = (some settingsBody, []) ∧
    appliedPropertyCount settingsBody = some 2 ∧
    ((mapGet settingsBody "InputSettings").isSome = true ↔
      (∃ level, settingsPlan.MinimumLevel = TFString.value level) ∨
      (∃ e, settingsPlan.Filter = TFString.value e) ∨
      (∃ entries, settingsPlan.AppliedProperties = TFMap.value entries)) :=
  ⟨rfl, by decide,
    (requestBody_inputSettings settingsPlan "AssignedPermissions" "" settingsBody []
      (Or.inl rfl) rfl).1⟩

theorem noError_built (plan : APIKeyModel) (field id : String) (body : Option Body)
    (diags : List Diagnostic) (h : apiKeyRequestBody plan field id = (body, diags))
    (hd : HasError diags = false) : ∃ built, body = some built := by
  rw [apiKeyRequestBody_eq] at h
  cases hp : plan.Permissions <;> cases ha : plan.AppliedProperties <;>
    simp only [hp, ha] at h <;>
    (try split at h) <;>
    simp only [Prod.mk.injEq] at h <;>
    first
    | exact ⟨_, h.1.symm⟩
    | (obtain ⟨_, rfl⟩ := h; simp [HasError] at hd)

/-- Every request of Create is a POST to the collection whose body was built
under one of the two permission field names with an empty id. -/
theorem Create_requests {σ : Type} (rt : GoRuntime) (r : APIKeyResource σ) (server : σ)
    (plan : APIKeyModel) (x : Request) (hx : x ∈ (Create rt r server plan).requests) :
    ∃ field body diags, (field = "AssignedPermissions" ∨ field = "Permissions") ∧
      apiKeyRequestBody plan field "" = (some body, diags) ∧
      x = ⟨MethodPost, "/api/apikeys", some body⟩ := by
  revert hx
  rcases r with ⟨_ | client⟩
  · simp [Create, Outcome.requests]
  rcases hb : apiKeyRequestBody plan "AssignedPermissions" "" with ⟨body, diags⟩
  rcases hb2 : apiKeyRequestBody plan "Permissions" "" with ⟨body2, diags2⟩
  simp only [Create, hb, hb2, Outcome.requests]
  cases hd : HasError diags
  swap
  · simp
  obtain ⟨b1, rfl⟩ := noError_built _ _ _ _ _ hb hd
  simp only [Bool.false_eq_true, if_false]
  rcases h1 : client.doJSON ⟨MethodPost, "/api/apikeys", some b1⟩ server with ⟨res, s1⟩
  cases res with
  | ok c1 =>
    simp only [List.map_cons, List.map_nil, List.mem_singleton]
    intro hx
    exact ⟨_, _, _, Or.inl rfl, hb, hx⟩
  | error err =>
    simp only []
    cases hf : legacyFallback err
    · simp only [Bool.false_eq_true, if_false, List.map_cons, List.map_nil, List.mem_singleton]
      intro hx
      exact ⟨_, _, _, Or.inl rfl, hb, hx⟩
    · simp only [if_true]
      cases hd2 : HasError (diags ++ diags2)
      swap
      · simp only [if_true, List.map_cons, List.map_nil, List.mem_singleton]
        intro hx
        exact ⟨_, _, _, Or.inl rfl, hb, hx⟩
      have hd2b : HasError diags2 = false := by
        cases diags with
        | nil => simpa using hd2
        | cons d ds => simp [HasError] at hd
      obtain ⟨b2, rfl⟩ := noError_built _ _ _ _ _ hb2 hd2b
      simp only [Bool.false_eq_true, if_false]
      rcases h2 : client.doJSON ⟨MethodPost, "/api/apikeys", some b2⟩ s1 with ⟨res2, s2⟩
      cases res2 <;>
        (simp only [List.map_cons, List.map_nil, List.mem_cons, List.mem_singleton,
            List.not_mem_nil, or_false]
         intro hx
         rcases hx with hx | hx
         · exact ⟨_, _, _, Or.inl rfl, hb, hx⟩
         · exact ⟨_, _, _, Or.inr rfl, hb2, hx⟩)

/-- Every request of Update is a PUT to the path of the tracked id whose body
was built under one of the two permission field names with that id. -/
theorem Update_requests {σ : Type} (rt : GoRuntime) (r : APIKeyResource σ) (server : σ)
    (plan state : APIKeyModel) (x : Request)
    (hx : x ∈ (Update rt r server plan state).requests) :
    ∃ field body diags, (field = "AssignedPermissions" ∨ field = "Permissions") ∧
      apiKeyRequestBody plan field state.ID.ValueString = (some body, diags) ∧
      x = ⟨MethodPut, "/api/apikeys/" ++ state.ID.ValueString, some body⟩ := by
  revert hx
  rcases r with ⟨_ | client⟩
  · simp [Update, Outcome.requests]
  rcases hb : apiKeyRequestBody plan "AssignedPermissions" state.ID.ValueString with ⟨body, diags⟩
  rcases hb2 : apiKeyRequestBody plan "Permissions" state.ID.ValueString with ⟨body2, diags2⟩
  simp only [Update, hb, hb2, Outcome.requests]
  cases hid : (state.ID.IsNull || state.ID.IsUnknown)
  swap
  · simp
  simp only [Bool.false_eq_true, if_false]
  cases hd : HasError diags
  swap
  · simp
  obtain ⟨b1, rfl⟩ := noError_built _ _ _ _ _ hb hd
  simp only [Bool.false_eq_true, if_false]
  rcases h1 : client.doJSON ⟨MethodPut, "/api/apikeys/" ++ state.ID.ValueString, some b1⟩ server
    with ⟨res, s1⟩
  cases res with
  | ok c1 =>
    simp only [List.map_cons, List.map_nil, List.mem_singleton]
    intro hx
    exact ⟨_, _, _, Or.inl rfl, hb, hx⟩
  | error err =>
    simp only []
    cases hf : legacyFallback err
    · simp only [Bool.false_eq_true, if_false, List.map_cons, List.map_nil, List.mem_singleton]
      intro hx
      exact ⟨_, _, _, Or.inl rfl, hb, hx⟩
    · simp only [if_true]
      cases hd2 : HasError (diags ++ diags2)
      swap
      · simp only [if_true, List.map_cons, List.map_nil, List.mem_singleton]
        intro hx
        exact ⟨_, _, _, Or.inl rfl, hb, hx⟩
      have hd2b : HasError diags2 = false := by
        cases diags with
        | nil => simpa using hd2
        | cons d ds => simp [HasError] at hd
      obtain ⟨b2, rfl⟩ := noError_built _ _ _ _ _ hb2 hd2b
      simp only [Bool.false_eq_true, if_false]
      rcases h2 : client.doJSON ⟨MethodPut, "/api/apikeys/" ++ state.ID.ValueString, some b2⟩ s1
        with ⟨res2, s2⟩
      cases res2 <;>
        (simp only [List.map_cons, List.map_nil, List.mem_cons, List.mem_singleton,
            List.not_mem_nil, or_false]
         intro hx
         rcases hx with hx | hx
         · exact ⟨_, _, _, Or.inl rfl, hb, hx⟩
         · exact ⟨_, _, _, Or.inr rfl, hb2, hx⟩)

/-- The lookups of "Id" and "Title" in a built body. -/
theorem apiKeyRequestBody_id_title (plan : APIKeyModel) (field id : String) (body : Body)
    (diags : List Diagnostic)
    (hfield : field = "AssignedPermissions" ∨ field = "Permissions")
    (h : apiKeyRequestBody plan field id = (some body, diags)) :
    mapGet body "Id" = (if id = "" then none else some (BodyValue.string id)) ∧
    mapGet body "Title" = some (BodyValue.string plan.Title.ValueString) := by
  have h1 : field ≠ "Id" := by rcases hfield with rfl | rfl <;> decide
  have h2 : field ≠ "Title" := by rcases hfield with rfl | rfl <;> decide
  obtain ⟨inner, rfl, hinner⟩ := apiKeyRequestBody_shape plan field id body diags h
  rw [mapGet_withSettings _ _ _ (by decide), mapGet_withSettings _ _ _ (by decide)]
  rcases hinner with rfl | ⟨perms, rfl⟩
  · exact ⟨mapGet_bodyBase_id plan id, mapGet_bodyBase_title plan id⟩
  · rw [mapGet_mapSet_ne _ _ _ _ h1, mapGet_mapSet_ne _ _ _ _ h2]
    exact ⟨mapGet_bodyBase_id plan id, mapGet_bodyBase_title plan id⟩

/-- C14: a body built with an empty id argument, as Create builds it, has no
"Id" key and has "Title" equal to the declared title; a body built with a
non-empty id has "Id" equal to it; every request of Create carries such a body
without "Id", and every request of Update for a tracked non-empty id goes to
the path "/api/apikeys/" followed by that id and carries that id under "Id". -/
theorem requestBody_id {σ : Type} (rt : GoRuntime) (r : APIKeyResource σ) (server : σ)
    (plan state : APIKeyModel) (id : String) (hid : state.ID = TFString.value id)
    (hne : id ≠ "") :
    (∀ field body diags, field = "AssignedPermissions" ∨ field = "Permissions" →
      apiKeyRequestBody plan field "" = (some body, diags) →
      mapGet body "Id" = none ∧
      mapGet body "Title" = some (BodyValue.string plan.Title.ValueString)) ∧
    (∀ field body diags, field = "AssignedPermissions" ∨ field = "Permissions" →
      apiKeyRequestBody plan field id = (some body, diags) →
      mapGet body "Id" = some (BodyValue.string id)) ∧
    (∀ x ∈ (Create rt r server plan).requests,
      x.path = "/api/apikeys" ∧
      ∃ body, x.body = some body ∧ mapGet body "Id" = none ∧
        mapGet body "Title" = some (BodyValue.string plan.Title.ValueString)) ∧
    (∀ x ∈ (Update rt r server plan state).requests,
      x.path = "/api/apikeys/" ++ id ∧
      ∃ body, x.body = some body ∧ mapGet body "Id" = some (BodyValue.string id)) := by
  refine ⟨?_, ?_, ?_, ?_⟩
  · intro field body diags hfield hbuilt
    have h := apiKeyRequestBody_id_title plan field "" body diags hfield hbuilt
    simpa using h
  · intro field body diags hfield hbuilt
    have h := (apiKeyRequestBody_id_title plan field id body diags hfield hbuilt).1
    simpa [hne] using h
  · intro x hx
    obtain ⟨field, body, diags, hfield, hbuilt, rfl⟩ := Create_requests rt r server plan x hx
    have h := apiKeyRequestBody_id_title plan field "" body diags hfield hbuilt
    exact ⟨rfl, body, rfl, by simpa using h.1, h.2⟩
  · intro x hx
    obtain ⟨field, body, diags, hfield, hbuilt, rfl⟩ :=
      Update_requests rt r server plan state x hx
    simp only [hid, TFString.ValueString] at hbuilt
    have h := (apiKeyRequestBody_id_title plan field id body diags hfield hbuilt).1
    exact ⟨by simp [hid, TFString.ValueString], body, rfl, by simpa [hne] using h⟩

/-- Witness of C14: the sample plan, created and then updated under the tracked
id "apikey-1" on a server of an older release, which makes both operations
issue two requests. -/
theorem requestBody_id_witness :
    sampleState.ID = TFString.value "apikey-1" ∧
    (Create sampleRuntime ⟨some legacyServer⟩ 0 samplePlan).requests.length = 2 ∧
    (Update sampleRuntime ⟨some legacyServer⟩ 0 samplePlan sampleState).requests.length = 2 ∧
    (Create sampleRuntime ⟨some legacyServer⟩ 0 samplePlan).requests.map
      (fun x => (x.path, (x.body.getD []).map Prod.fst))
      = [("/api/apikeys", ["Title", "AssignedPermissions"]),
         ("/api/apikeys", ["Title", "Permissions"])] ∧
    (Update sampleRuntime ⟨some legacyServer⟩ 0 samplePlan sampleState).requests.map
      (fun x => (x.path, bodyString (x.body.getD []) "Id"))
      = [("/api/apikeys/apikey-1", some "apikey-1"), ("/api/apikeys/apikey-1", some "apikey-1")] ∧
    (∀ x ∈ (Update sampleRuntime ⟨some legacyServer⟩ 0 samplePlan sampleState).requests,
      x.path = "/api/apikeys/" ++ "apikey-1" ∧
      ∃ body, x.body = some body ∧ mapGet body "Id" = some (BodyValue.string "apikey-1")) :=
  ⟨rfl, by decide, by decide, by decide, by decide,
    (requestBody_id sampleRuntime ⟨some legacyServer⟩ 0 samplePlan sampleState "apikey-1" rfl
      (by decide)).2.2.2⟩

/-! ## Settings written and merged back -/

theorem requestSettings_level (plan : APIKeyModel) :
    mapGet (requestSettings plan) "MinimumLevel" =
      match plan.MinimumLevel with
      | .value level => some (BodyValue.string level)
      | _ => none := by
  unfold requestSettings
  cases plan.AppliedProperties
  · exact settingsBase_level plan
  · exact settingsBase_level plan
  · rw [mapGet_mapSet_ne _ _ _ _ (by decide)]
    exact settingsBase_level plan

theorem requestSettings_filter (plan : APIKeyModel) :
    mapGet (requestSettings plan) "Filter" =
      match plan.Filter with
      | .value e =>
        some (BodyValue.object
          [("Filter", BodyValue.string e), ("FilterNonStrict", BodyValue.string e)])
      | _ => none := by
  unfold requestSettings
  cases plan.AppliedProperties
  · exact settingsBase_filter plan
  · exact settingsBase_filter plan
  · rw [mapGet_mapSet_ne _ _ _ _ (by decide)]
    exact settingsBase_filter plan

theorem requestSettings_properties (plan : APIKeyModel) :
    mapGet (requestSettings plan) "AppliedProperties" =
      match plan.AppliedProperties with
      | .value entries =>
        some (BodyValue.objects (entries.map fun kv =>
          [("Name", BodyValue.string kv.1), ("Value", BodyValue.string kv.2.ValueString)]))
      | _ => none := by
  unfold requestSettings
  cases plan.AppliedProperties with
  | null => exact settingsBase_properties plan
  | unknown => exact settingsBase_properties plan
  | value entries =>
    rw [mapGet_mapSet_same]
    simp [propertyList, List.map_map, Function.comp_def]

/-- The settings a response echoes from a built body, in closed form. -/
theorem echoedSettings_built (plan : APIKeyModel) (field id : String) (body : Body)
    (diags : List Diagnostic)
    (hfield : field = "AssignedPermissions" ∨ field = "Permissions")
    (hbuilt : apiKeyRequestBody plan field id = (some body, diags)) :
    echoedSettings body =
      if 0 < (requestSettings plan).length then
        some
          { AppliedProperties :=
              match plan.AppliedProperties with
              | .value entries =>
                entries.map fun kv => ⟨kv.1, AnyValue.string kv.2.ValueString⟩
              | _ => []
            Filter :=
              match plan.Filter with
              | .value e => some ⟨e, e⟩
              | _ => none
            MinimumLevel :=
              match plan.MinimumLevel with
              | .value level => some level
              | _ => none }
      else none := by
  have hne : field ≠ "InputSettings" := by
    rcases hfield with rfl | rfl <;> decide
  unfold echoedSettings
  rw [apiKeyRequestBody_settings plan field id body diags hne hbuilt]
  split
  · show settingsAsResponse (BodyValue.object (requestSettings plan)) = _
    simp only [settingsAsResponse, requestSettings_level, requestSettings_filter,
      requestSettings_properties]
    cases plan.AppliedProperties <;> cases plan.Filter <;> cases plan.MinimumLevel <;>
      simp [decodeFilter, decodeString, decodeProperty, mapGet, List.map_map,
        Function.comp_def]
  · rfl

theorem mapSet_fresh {α : Type} (m : List (String × α)) (k : String) (v : α)
    (h : k ∉ mapKeys m) : mapSet m k v = m ++ [(k, v)] := by
  induction m with
  | nil => rfl
  | cons p rest ih =>
    obtain ⟨k1, v1⟩ := p
    simp only [mapKeys, List.map_cons, List.mem_cons, not_or] at h
    have hne : ¬ k1 = k := fun e => h.1 e.symm
    simp only [mapSet, hne, if_false, List.cons_append, List.cons.injEq, true_and]
    exact ih h.2

/-- The loop of the merge on a list of string properties with distinct names,
none of them in the map yet: every property is appended in order. -/
theorem buildPropsMap_fresh (rt : GoRuntime) (entries : List (String × TFString))
    (acc : List (String × TFString)) (hnodup : (mapKeys entries).Nodup)
    (hnew : ∀ k ∈ mapKeys entries, k ∉ mapKeys acc) :
    buildPropsMap rt
        (entries.map fun kv => (⟨kv.1, AnyValue.string kv.2.ValueString⟩ : eventPropertyPart))
        acc
      = acc ++ entries.map fun kv => (kv.1, TFString.value kv.2.ValueString) := by
  induction entries generalizing acc with
  | nil => simp [buildPropsMap]
  | cons kv rest ih =>
    simp only [mapKeys, List.map_cons, List.nodup_cons, List.mem_cons, forall_eq_or_imp] at hnodup hnew
    simp only [List.map_cons, buildPropsMap]
    rw [mapSet_fresh _ _ _ hnew.1, ih _ hnodup.2]
    · simp
    · intro k hk
      simp only [mapKeys, List.map_append, List.map_cons, List.map_nil, List.mem_append,
        List.mem_singleton, not_or]
      refine ⟨hnew.2 k hk, ?_⟩
      rintro rfl
      exact hnodup.1 hk

theorem elementsAsStringMap_known (entries : List (String × TFString))
    (propsMap : List (String × String)) (h : elementsAsStringMap entries = some propsMap) :
    (entries.map fun kv => (kv.1, TFString.value kv.2.ValueString)) = entries := by
  induction entries generalizing propsMap with
  | nil => rfl
  | cons kv rest ih =>
    obtain ⟨k, e⟩ := kv
    cases e with
    | null => simp [elementsAsStringMap, elementAsString] at h
    | unknown => simp [elementsAsStringMap, elementAsString] at h
    | value s =>
      cases hr : elementsAsStringMap rest with
      | none => simp [elementsAsStringMap, elementAsString, hr] at h
      | some ss =>
        have e := ih ss hr
        simp only [List.map_cons, List.cons.injEq]
        exact ⟨rfl, e⟩

theorem built_properties_known (plan : APIKeyModel) (field id : String) (body : Body)
    (diags : List Diagnostic) (entries : List (String × TFString))
    (hbuilt : apiKeyRequestBody plan field id = (some body, diags))
    (ha : plan.AppliedProperties = TFMap.value entries) :
    ∃ propsMap, elementsAsStringMap entries = some propsMap := by
  rw [apiKeyRequestBody_eq] at hbuilt
  cases hm : elementsAsStringMap entries with
  | some propsMap => exact ⟨propsMap, rfl⟩
  | none =>
    cases hp : plan.Permissions with
    | null => simp [hp, ha, hm] at hbuilt
    | unknown => simp [hp, ha, hm] at hbuilt
    | value elems =>
      cases he : elementsAsStrings elems <;> simp [hp, ha, hm, he] at hbuilt

/-- C15: a body is built for the model and the response returns its settings
object unchanged (nil when the body has none). Then for every prior state the
merge gives the minimum level of the model when that is absent or a non-empty
string, the filter of the model when that is absent or a non-empty string, and
the applied properties of the model when they are absent or a non-empty mapping
(with distinct keys, as every mapping has); but a filter present with the empty
string, and a mapping present with no entry, are merged to null. -/
theorem settings_round_trip (rt : GoRuntime) (plan prior : APIKeyModel) (field id : String)
    (body : Body) (diags : List Diagnostic) (resp : apiKeyResponse)
    (hfield : field = "AssignedPermissions" ∨ field = "Permissions")
    (hbuilt : apiKeyRequestBody plan field id = (some body, diags))
    (hresp : resp.InputSettings = echoedSettings body) :
    ((plan.MinimumLevel = TFString.null ∨
        ∃ level, level ≠ "" ∧ plan.MinimumLevel = TFString.value level) →
      (applyAPIKeyResponse rt prior resp).MinimumLevel = plan.MinimumLevel) ∧
    ((plan.Filter = TFString.null ∨ ∃ e, e ≠ "" ∧ plan.Filter = TFString.value e) →
      (applyAPIKeyResponse rt prior resp).Filter = plan.Filter) ∧
    ((plan.AppliedProperties = TFMap.null ∨
        ∃ entries, entries ≠ [] ∧ (mapKeys entries).Nodup ∧
          plan.AppliedProperties = TFMap.value entries) →
      (applyAPIKeyResponse rt prior resp).AppliedProperties = plan.AppliedProperties) ∧
    (plan.Filter = TFString.value "" →
      (applyAPIKeyResponse rt prior resp).Filter = TFString.null) ∧
    (plan.AppliedProperties = TFMap.value [] →
      (applyAPIKeyResponse rt prior resp).AppliedProperties = TFMap.null) := by
  have hecho := echoedSettings_built plan field id body diags hfield hbuilt
  rw [← hresp] at hecho
  have hlen := requestSettings_length plan
  rw [applyAPIKeyResponse_eq]
  refine ⟨?_, ?_, ?_, ?_, ?_⟩
  · rintro (h | ⟨level, hl, h⟩)
    · by_cases hpos : 0 < (requestSettings plan).length
      · simp [hecho, hpos, h]
      · simp [hecho, hpos, h]
    · have hpos : 0 < (requestSettings plan).length := hlen.mpr (Or.inl ⟨level, h⟩)
      simp [hecho, hpos, h, hl]
  · rintro (h | ⟨e, he, h⟩)
    · by_cases hpos : 0 < (requestSettings plan).length
      · simp [hecho, hpos, h]
      · simp [hecho, hpos, h]
    · have hpos : 0 < (requestSettings plan).length := hlen.mpr (Or.inr (Or.inl ⟨e, h⟩))
      simp [hecho, hpos, h, he]
  · rintro (h | ⟨entries, hne, hnodup, h⟩)
    · by_cases hpos : 0 < (requestSettings plan).length
      · simp [hecho, hpos, h]
      · simp [hecho, hpos, h]
    · have hpos : 0 < (requestSettings plan).length :=
        hlen.mpr (Or.inr (Or.inr ⟨entries, h⟩))
      obtain ⟨propsMap, hm⟩ := built_properties_known plan field id body diags entries hbuilt h
      have hb := buildPropsMap_fresh rt entries [] hnodup (by simp [mapKeys])
      rw [List.nil_append, elementsAsStringMap_known entries propsMap hm] at hb
      have hlen2 : 0 < entries.length := List.length_pos.mpr hne
      simp [hecho, hpos, h, hb, hlen2]
  · intro h
    have hpos : 0 < (requestSettings plan).length := hlen.mpr (Or.inr (Or.inl ⟨"", h⟩))
    simp [hecho, hpos, h]
  · intro h
    have hpos : 0 < (requestSettings plan).length := hlen.mpr (Or.inr (Or.inr ⟨[], h⟩))
    simp [hecho, hpos, h]

/-- Witness of C15: the model with a level, a filter and two properties gets
all three back; the model with an empty filter and an empty mapping gets null
for both. -/
theorem settings_round_trip_witness :
    apiKeyRequestBody settingsPlan "AssignedPermissions" "" = (some settingsBody, []) ∧
    apiKeyRequestBody emptySettingsPlan "AssignedPermissions" "" = (some emptySettingsBody, []) ∧
    (applyAPIKeyResponse sampleRuntime sampleState (settingsEcho settingsBody)).MinimumLevel
      = TFString.value "Warning" ∧
    (applyAPIKeyResponse sampleRuntime sampleState (settingsEcho settingsBody)).Filter
      = TFString.value "@Level = 'Error'" ∧
    (applyAPIKeyResponse sampleRuntime sampleState (settingsEcho settingsBody)).AppliedProperties
      = TFMap.value [("Application", .value "MyApp"), ("Environment", .value "Production")] ∧
    (applyAPIKeyResponse sampleRuntime sampleState (settingsEcho emptySettingsBody)).Filter
      = TFString.null ∧
    (applyAPIKeyResponse sampleRuntime sampleState
      (settingsEcho emptySettingsBody)).AppliedProperties = TFMap.null :=
  ⟨rfl, rfl,
    (settings_round_trip sampleRuntime settingsPlan sampleState "AssignedPermissions" ""
      settingsBody [] (settingsEcho settingsBody) (Or.inl rfl) rfl rfl).1
      (Or.inr ⟨"Warning", by decide, rfl⟩),
    (settings_round_trip sampleRuntime settingsPlan sampleState "AssignedPermissions" ""
      settingsBody [] (settingsEcho settingsBody) (Or.inl rfl) rfl rfl).2.1
      (Or.inr ⟨"@Level = 'Error'", by decide, rfl⟩),
    (settings_round_trip sampleRuntime settingsPlan sampleState "AssignedPermissions" ""
      settingsBody [] (settingsEcho settingsBody) (Or.inl rfl) rfl rfl).2.2.1
      (Or.inr ⟨_, by simp, by decide, rfl⟩),
    (settings_round_trip sampleRuntime emptySettingsPlan sampleState "AssignedPermissions" ""
      emptySettingsBody [] (settingsEcho emptySettingsBody) (Or.inl rfl) rfl rfl).2.2.2.1 rfl,
    (settings_round_trip sampleRuntime emptySettingsPlan sampleState "AssignedPermissions" ""
      emptySettingsBody [] (settingsEcho emptySettingsBody) (Or.inl rfl) rfl rfl).2.2.2.2 rfl⟩

/-! ## Property values coerced to strings -/

theorem bitLengthAux_le (fuel a n : Nat) (h : a < 2 ^ n) : bitLengthAux fuel a ≤ n := by
  induction fuel generalizing a n with
  | zero => simp [bitLengthAux]
  | succ fuel ih =>
    unfold bitLengthAux
    split
    · exact Nat.zero_le n
    · rename_i hne
      cases n with
      | zero =>
        simp only [pow_zero, Nat.lt_one_iff] at h
        exact absurd h hne
      | succ n =>
        have hhalf : a / 2 < 2 ^ n := by
          rw [pow_succ] at h
          omega
        have := ih (a / 2) n hhalf
        omega

/-- The conversion `float64(i)` is exact when the magnitude of `i` is a
53-bit significand times a power of two. -/
theorem roundToFloat64_exact (i : Int) (m e : Nat) (hm : m < 2 ^ 53)
    (ha : i.natAbs = m * 2 ^ e) : roundToFloat64 i = i := by
  have hr : (if bitLength i.natAbs ≤ 53 then i.natAbs
      else
        if i.natAbs % 2 ^ (bitLength i.natAbs - 53) > 2 ^ (bitLength i.natAbs - 53 - 1) ∨
            (i.natAbs % 2 ^ (bitLength i.natAbs - 53) = 2 ^ (bitLength i.natAbs - 53 - 1) ∧
              i.natAbs / 2 ^ (bitLength i.natAbs - 53) % 2 = 1)
        then (i.natAbs / 2 ^ (bitLength i.natAbs - 53) + 1) * 2 ^ (bitLength i.natAbs - 53)
        else i.natAbs / 2 ^ (bitLength i.natAbs - 53) * 2 ^ (bitLength i.natAbs - 53))
      = i.natAbs := by
    split
    · rfl
    · rename_i hbits
      have hlt : i.natAbs < 2 ^ (53 + e) := by
        rw [ha, pow_add]
        exact Nat.mul_lt_mul_of_pos_right hm (by positivity)
      have hle : bitLength i.natAbs ≤ 53 + e := bitLengthAux_le _ _ _ hlt
      have hshift : bitLength i.natAbs - 53 ≤ e := by omega
      have hpow : 2 ^ e ∣ i.natAbs := ⟨m, by rw [ha, Nat.mul_comm]⟩
      have hdvd : 2 ^ (bitLength i.natAbs - 53) ∣ i.natAbs :=
        (pow_dvd_pow 2 hshift).trans hpow
      have hrem : i.natAbs % 2 ^ (bitLength i.natAbs - 53) = 0 := Nat.mod_eq_zero_of_dvd hdvd
      have hhalf : 0 < 2 ^ (bitLength i.natAbs - 53 - 1) := by positivity
      rw [hrem]
      rw [if_neg (by omega)]
      exact Nat.div_mul_cancel hdvd
  unfold roundToFloat64
  simp only [hr]
  split
  · omega
  · omega

theorem truncFinite_natAbs (neg : Bool) (mant : Nat) (exp : Int) (hm : mant < 2 ^ 53) :
    ∃ m e : Nat, m < 2 ^ 53 ∧ (truncFinite neg mant exp).natAbs = m * 2 ^ e := by
  cases exp with
  | ofNat e =>
    refine ⟨mant, e, hm, ?_⟩
    show (if neg = true then -((mant * 2 ^ e : Nat) : Int) else ((mant * 2 ^ e : Nat) : Int)).natAbs
      = mant * 2 ^ e
    cases neg <;> simp only [Bool.false_eq_true, if_false, if_true, Int.natAbs_neg,
      Int.natAbs_ofNat]
  | negSucc e =>
    refine ⟨mant / 2 ^ (e + 1), 0, lt_of_le_of_lt (Nat.div_le_self _ _) hm, ?_⟩
    show (if neg = true then -((mant / 2 ^ (e + 1) : Nat) : Int)
      else ((mant / 2 ^ (e + 1) : Nat) : Int)).natAbs = mant / 2 ^ (e + 1) * 2 ^ 0
    cases neg <;> simp only [Bool.false_eq_true, if_false, if_true, Int.natAbs_neg,
      Int.natAbs_ofNat, pow_zero, Nat.mul_one]

/-- A finite `float64` with no fractional part and within the `int64` range is
rendered as its integer value in decimal. -/
theorem anyToString_integral (rt : GoRuntime) (neg : Bool) (mant : Nat) (exp : Int)
    (hm : mant < 2 ^ 53) (hint : isIntegralFinite mant exp = true)
    (hlo : -(2 ^ 63 : Int) ≤ truncFinite neg mant exp)
    (hhi : truncFinite neg mant exp < (2 ^ 63 : Int)) :
    anyToString rt (AnyValue.float64 (Float64.finite neg mant exp))
      = toString (truncFinite neg mant exp) := by
  obtain ⟨m, e, hm2, hnat⟩ := truncFinite_natAbs neg mant exp hm
  have hto : toInt64 rt (Float64.finite neg mant exp) = truncFinite neg mant exp := by
    simp only [toInt64]
    rw [if_pos ⟨hlo, hhi⟩]
  have heq : equalsOwnInt64 rt (Float64.finite neg mant exp) = true := by
    simp only [equalsOwnInt64, hint, hto, Bool.true_and, decide_eq_true_eq]
    exact (roundToFloat64_exact _ m e hm2 hnat).symm
  simp only [anyToString, heq, if_true, hto]

theorem buildPropsMap_append (rt : GoRuntime) (xs ys : List eventPropertyPart)
    (acc : List (String × TFString)) :
    buildPropsMap rt (xs ++ ys) acc = buildPropsMap rt ys (buildPropsMap rt xs acc) := by
  induction xs generalizing acc with
  | nil => rfl
  | cons x rest ih =>
    simp only [List.cons_append, buildPropsMap]
    exact ih _

theorem mapGet_buildPropsMap_other (rt : GoRuntime) (props : List eventPropertyPart)
    (acc : List (String × TFString)) (k : String) (h : ∀ q ∈ props, q.Name ≠ k) :
    mapGet (buildPropsMap rt props acc) k = mapGet acc k := by
  induction props generalizing acc with
  | nil => rfl
  | cons p rest ih =>
    simp only [List.mem_cons, forall_eq_or_imp] at h
    simp only [buildPropsMap]
    rw [ih _ h.2, mapGet_mapSet_ne _ _ _ _ h.1]

/-- The loop of the merge maps the name of a property that no later property
repeats to the string of its value. -/
theorem mapGet_buildPropsMap_last (rt : GoRuntime) (before after : List eventPropertyPart)
    (prop : eventPropertyPart) (acc : List (String × TFString))
    (h : ∀ q ∈ after, q.Name ≠ prop.Name) :
    mapGet (buildPropsMap rt (before ++ prop :: after) acc) prop.Name
      = some (TFString.value (anyToString rt prop.Value)) := by
  rw [buildPropsMap_append]
  simp only [buildPropsMap]
  rw [mapGet_buildPropsMap_other rt after _ _ h, mapGet_mapSet_same]
  cases prop.Value <;> rfl

/-- C11: when the response carries a non-empty property list, the merged
applied properties are a mapping that sends every property name to the string
of the value of its last occurrence in the list, and holds no other name. The
string of a string value is the value itself, of a boolean "true" or "false",
and of a finite number with no fractional part and within the signed 64-bit
range the decimal rendering of its integer value. -/
theorem merged_property_values (rt : GoRuntime) (state : APIKeyModel) (resp : apiKeyResponse)
    (settings : inputSettingsPart) (hs : resp.InputSettings = some settings)
    (hne : settings.AppliedProperties ≠ []) :
    (∃ merged, (applyAPIKeyResponse rt state resp).AppliedProperties = TFMap.value merged ∧
      (∀ before prop after, settings.AppliedProperties = before ++ prop :: after →
        (∀ q ∈ after, q.Name ≠ prop.Name) →
        mapGet merged prop.Name = some (TFString.value (anyToString rt prop.Value))) ∧
      (∀ name, (∀ q ∈ settings.AppliedProperties, q.Name ≠ name) → mapGet merged name = none)) ∧
    (∀ s, anyToString rt (AnyValue.string s) = s) ∧
    anyToString rt (AnyValue.bool true) = "true" ∧
    anyToString rt (AnyValue.bool false) = "false" ∧
    (∀ neg mant exp, mant < 2 ^ 53 → isIntegralFinite mant exp = true →
      -(2 ^ 63 : Int) ≤ truncFinite neg mant exp → truncFinite neg mant exp < (2 ^ 63 : Int) →
      anyToString rt (AnyValue.float64 (Float64.finite neg mant exp))
        = toString (truncFinite neg mant exp)) := by
  refine ⟨⟨buildPropsMap rt settings.AppliedProperties [], ?_, ?_, ?_⟩, ?_, ?_, ?_, ?_⟩
  · rw [applyAPIKeyResponse_eq]
    have hpos : 0 < settings.AppliedProperties.length := List.length_pos.mpr hne
    simp [hs, hpos]
  · intro before prop after hsplit hlast
    rw [hsplit]
    exact mapGet_buildPropsMap_last rt before after prop [] hlast
  · intro name hname
    rw [mapGet_buildPropsMap_other rt _ _ _ hname]
    rfl
  · intro s
    rfl
  · rfl
  · rfl
  · intro neg mant exp hm hint hlo hhi
    exact anyToString_integral rt neg mant exp hm hint hlo hhi

/-- Witness of C11: the property {"Name":"Version","Value":1.0} merges to
"Version" mapped to "1". -/
theorem merged_property_values_witness :
    (applyAPIKeyResponse sampleRuntime sampleState versionResponse).AppliedProperties
      = TFMap.value [("Version", TFString.value "1")] ∧
    truncFinite false 4503599627370496 (-52) = 1 ∧
    anyToString sampleRuntime (AnyValue.float64 (Float64.finite false 4503599627370496 (-52)))
      = "1" ∧
    (∃ merged,
      (applyAPIKeyResponse sampleRuntime sampleState versionResponse).AppliedProperties
        = TFMap.value merged ∧
      mapGet merged "Version" = some (TFString.value "1")) := by
  refine ⟨by decide, by decide, ?_, ?_⟩
  · have h := (merged_property_values sampleRuntime sampleState versionResponse _ rfl
      (by simp)).2.2.2.2 false 4503599627370496 (-52) (by decide) (by decide) (by decide)
      (by decide)
    rw [h]
    decide
  · obtain ⟨merged, hm, hlast, _⟩ := (merged_property_values sampleRuntime sampleState
      versionResponse _ rfl (by simp)).1
    refine ⟨merged, hm, ?_⟩
    have h := hlast [] ⟨"Version", AnyValue.float64 (Float64.finite false 4503599627370496 (-52))⟩
      [] rfl (by simp)
    rw [h]
    decide

/-! ## Create followed by Read -/

/-- Create when the first call is answered with a decoded response. -/
theorem Create_first_ok {σ : Type} (rt : GoRuntime) (client : Client σ) (server after : σ)
    (plan : APIKeyModel) (body : Body) (created : apiKeyResponse)
    (hbuilt : apiKeyRequestBody plan "AssignedPermissions" "" = (some body, []))
    (hcall : client.doJSON ⟨MethodPost, "/api/apikeys", some body⟩ server
      = (Except.ok created, after)) :
    (Create rt ⟨some client⟩ server plan).State
      = (stateSet (resolveComputed (applyAPIKeyResponse rt plan created))).2 ∧
    (Create rt ⟨some client⟩ server plan).server = after := by
  simp only [Create, hbuilt, HasError, List.isEmpty, Bool.not_true, Bool.false_eq_true, if_false,
    hcall, resolve_split, and_self]

/-- Read when the call is answered with a decoded response. -/
theorem Read_first_ok {σ : Type} (rt : GoRuntime) (client : Client σ) (server after : σ)
    (state : APIKeyModel) (id : String) (got : apiKeyResponse)
    (hid : state.ID = TFString.value id)
    (hcall : client.doJSON ⟨MethodGet, "/api/apikeys/" ++ id, none⟩ server
      = (Except.ok got, after)) :
    (Read rt ⟨some client⟩ server state).State = (stateSet
      (if got.Token = "" then { applyAPIKeyResponse rt state got with Token := state.Token }
       else applyAPIKeyResponse rt state got)).2 := by
  simp only [Read, hid, TFString.IsNull, TFString.IsUnknown, TFString.ValueString, Bool.or_self,
    Bool.false_eq_true, if_false, hcall]

theorem applyAPIKeyResponse_Title (rt : GoRuntime) (m : APIKeyModel) (resp : apiKeyResponse) :
    (applyAPIKeyResponse rt m resp).Title
      = if resp.Title = "" then m.Title else TFString.value resp.Title := by
  rw [applyAPIKeyResponse_eq]

theorem applyAPIKeyResponse_Token (rt : GoRuntime) (m : APIKeyModel) (resp : apiKeyResponse) :
    (applyAPIKeyResponse rt m resp).Token
      = if resp.Token = "" then m.Token else TFString.value resp.Token := by
  rw [applyAPIKeyResponse_eq]

theorem applyAPIKeyResponse_Permissions (rt : GoRuntime) (m : APIKeyModel)
    (resp : apiKeyResponse) :
    (applyAPIKeyResponse rt m resp).Permissions
      = match resp.permissionList with
        | some perms => TFSet.value (perms.map TFString.value)
        | none => m.Permissions := by
  rw [applyAPIKeyResponse_eq]
  unfold apiKeyResponse.permissionList
  cases resp.AssignedPermissions <;> cases resp.Permissions <;> rfl

/-- C12: the server answers the POST of a body with the declared title and
permission list with a record that has a non-empty id, that title and that
list, and answers the GET of that id with the same record. Then Create of a
desired model with this title and these permissions (a set: no element twice;
its token not yet known), followed by Read of the state Create returned, gives
a state whose title and permission set are those of the model and whose token
is the token of the record when that is non-empty and null when it is empty. -/
theorem create_read_round_trip {σ : Type} (rt : GoRuntime) (client : Client σ)
    (server afterPost afterGet : σ) (plan : APIKeyModel) (title : String) (perms : List String)
    (record : apiKeyResponse)
    (htitle : plan.Title = TFString.value title)
    (hperms : plan.Permissions = TFSet.value (perms.map TFString.value))
    (hdistinct : plan.Permissions.distinct = true)
    (hprops : plan.AppliedProperties.elementsKnown = true)
    (htoken : plan.Token = TFString.unknown ∨ plan.Token = TFString.null)
    (hid : record.ID ≠ "") (hrtitle : record.Title = title)
    (hrperms : record.permissionList = some perms)
    (hpost : ∀ body : Body, mapGet body "Title" = some (BodyValue.string title) →
      mapGet body "AssignedPermissions" = some (BodyValue.strings perms) →
      client.doJSON ⟨MethodPost, "/api/apikeys", some body⟩ server
        = (Except.ok record, afterPost))
    (hget : client.doJSON ⟨MethodGet, "/api/apikeys/" ++ record.ID, none⟩ afterPost
      = (Except.ok record, afterGet)) :
    (createThenRead rt ⟨some client⟩ server plan).map APIKeyModel.Title = some plan.Title ∧
    (createThenRead rt ⟨some client⟩ server plan).map APIKeyModel.Permissions
      = some plan.Permissions ∧
    (createThenRead rt ⟨some client⟩ server plan).map APIKeyModel.Token
      = some (if record.Token = "" then TFString.null else TFString.value record.Token) ∧
    (∀ final, createThenRead rt ⟨some client⟩ server plan = some final →
      final.Token.ValueString ≠ "" → record.Token ≠ "") := by
  obtain ⟨body, hbuilt, hbperms, -⟩ := apiKeyRequestBody_built plan "AssignedPermissions"
    "Permissions" "" perms hperms hprops (by decide) (by decide) (by decide) (by decide)
    (by decide) (by decide)
  have hbtitle : mapGet body "Title" = some (BodyValue.string title) := by
    have h := (apiKeyRequestBody_id_title plan "AssignedPermissions" "" body [] (Or.inl rfl)
      hbuilt).2
    rw [h, htitle]
    rfl
  obtain ⟨hstate, hserver⟩ := Create_first_ok rt client server afterPost plan body record hbuilt
    (hpost body hbtitle hbperms)
  have hcperm : (resolveComputed (applyAPIKeyResponse rt plan record)).Permissions
      = plan.Permissions := by
    simp only [resolveComputed, applyAPIKeyResponse_Permissions, hrperms, hperms]
  have hcset := stateSet_distinct (resolveComputed (applyAPIKeyResponse rt plan record))
    (by rw [hcperm]; exact hdistinct)
  rw [hcset] at hstate
  have hcid : (resolveComputed (applyAPIKeyResponse rt plan record)).ID
      = TFString.value record.ID := by
    rw [applyAPIKeyResponse_eq]
    simp [resolveComputed, hid]
  have hread := Read_first_ok rt client afterPost afterGet
    (resolveComputed (applyAPIKeyResponse rt plan record)) record.ID record hcid hget
  have hfperm : (if record.Token = "" then
        { applyAPIKeyResponse rt (resolveComputed (applyAPIKeyResponse rt plan record)) record
          with Token := (resolveComputed (applyAPIKeyResponse rt plan record)).Token }
       else applyAPIKeyResponse rt (resolveComputed (applyAPIKeyResponse rt plan record))
        record).Permissions = plan.Permissions := by
    split <;> simp only [applyAPIKeyResponse_Permissions, hrperms, hperms]
  rw [stateSet_distinct _ (by rw [hfperm]; exact hdistinct)] at hread
  have hboth : createThenRead rt ⟨some client⟩ server plan = some
      (if record.Token = "" then
        { applyAPIKeyResponse rt (resolveComputed (applyAPIKeyResponse rt plan record)) record
          with Token := (resolveComputed (applyAPIKeyResponse rt plan record)).Token }
       else applyAPIKeyResponse rt (resolveComputed (applyAPIKeyResponse rt plan record))
        record) := by
    simp only [createThenRead, Outcome.returned, hstate, hserver, hread]
  have hfinal : ∀ final, createThenRead rt ⟨some client⟩ server plan = some final →
      final.Title = plan.Title ∧ final.Permissions = plan.Permissions ∧
      final.Token
        = (if record.Token = "" then TFString.null else TFString.value record.Token) := by
    intro final hf
    rw [hboth] at hf
    simp only [Option.some.injEq] at hf
    subst hf
    by_cases htok : record.Token = ""
    · simp only [htok, if_true]
      refine ⟨?_, ?_, ?_⟩
      · simp only [applyAPIKeyResponse_Title, resolveComputed, hrtitle, htitle]
        split <;> simp_all
      · simp only [applyAPIKeyResponse_Permissions, hrperms, hperms]
      · simp only [resolveComputed, applyAPIKeyResponse_Token, htok, if_true]
        rcases htoken with h | h <;> simp [h, TFString.IsUnknown]
    · simp only [htok, if_false]
      refine ⟨?_, ?_, ?_⟩
      · simp only [applyAPIKeyResponse_Title, resolveComputed, hrtitle, htitle]
        split <;> simp_all
      · simp only [applyAPIKeyResponse_Permissions, hrperms, hperms]
      · simp only [applyAPIKeyResponse_Token, htok, if_false]
  obtain ⟨final, hsome⟩ : ∃ final, createThenRead rt ⟨some client⟩ server plan = some final :=
    ⟨_, hboth⟩
  obtain ⟨f1, f2, f3⟩ := hfinal final hsome
  refine ⟨?_, ?_, ?_, ?_⟩
  · rw [hsome, Option.map_some', f1]
  · rw [hsome, Option.map_some', f2]
  · rw [hsome, Option.map_some', f3]
  · intro final2 hsome2 hnonempty
    obtain ⟨-, -, g3⟩ := hfinal final2 hsome2
    intro hempty
    rw [g3, if_pos hempty] at hnonempty
    exact hnonempty rfl

theorem echoServer_post (token : String) (body : Body)
    (h1 : mapGet body "Title" = some (BodyValue.string "k"))
    (h2 : mapGet body "AssignedPermissions" = some (BodyValue.strings ["Read", "Write"])) :
    (echoServer token).doJSON ⟨MethodPost, "/api/apikeys", some body⟩ none
      = (Except.ok (echoedRecord token), some (echoedRecord token)) := by
  simp [echoServer, bodyString, bodyStrings, h1, h2, echoedRecord]

theorem echoServer_get (token : String) :
    (echoServer token).doJSON ⟨MethodGet, "/api/apikeys/" ++ (echoedRecord token).ID, none⟩
        (some (echoedRecord token))
      = (Except.ok (echoedRecord token), some (echoedRecord token)) := by
  simp [echoServer, echoedRecord, MethodGet, MethodPost]

/-- Witness of C12: title "k" and permissions {"Read","Write"} against the
echoing server, once with the token "secret" in the record and once without. -/
theorem create_read_round_trip_witness :
    samplePlan.Title = TFString.value "k" ∧
    samplePlan.Permissions = TFSet.value (["Read", "Write"].map TFString.value) ∧
    (createThenRead sampleRuntime ⟨some (echoServer "secret")⟩ none samplePlan).map
      APIKeyModel.Title = some (TFString.value "k") ∧
    (createThenRead sampleRuntime ⟨some (echoServer "secret")⟩ none samplePlan).map
      APIKeyModel.Permissions = some (TFSet.value [TFString.value "Read", TFString.value "Write"]) ∧
    (createThenRead sampleRuntime ⟨some (echoServer "secret")⟩ none samplePlan).map
      APIKeyModel.Token = some (TFString.value "secret") ∧
    (createThenRead sampleRuntime ⟨some (echoServer "")⟩ none samplePlan).map
      APIKeyModel.Token = some TFString.null :=
  ⟨rfl, rfl,
    (create_read_round_trip sampleRuntime (echoServer "secret") none
      (some (echoedRecord "secret")) (some (echoedRecord "secret")) samplePlan "k"
      ["Read", "Write"] (echoedRecord "secret") rfl rfl (by decide) rfl (Or.inl rfl) (by decide) rfl rfl
      (echoServer_post "secret") (echoServer_get "secret")).1,
    (create_read_round_trip sampleRuntime (echoServer "secret") none
      (some (echoedRecord "secret")) (some (echoedRecord "secret")) samplePlan "k"
      ["Read", "Write"] (echoedRecord "secret") rfl rfl (by decide) rfl (Or.inl rfl) (by decide) rfl rfl
      (echoServer_post "secret") (echoServer_get "secret")).2.1,
    (create_read_round_trip sampleRuntime (echoServer "secret") none
      (some (echoedRecord "secret")) (some (echoedRecord "secret")) samplePlan "k"
      ["Read", "Write"] (echoedRecord "secret") rfl rfl (by decide) rfl (Or.inl rfl) (by decide) rfl rfl
      (echoServer_post "secret") (echoServer_get "secret")).2.2.1,
    (create_read_round_trip sampleRuntime (echoServer "") none
      (some (echoedRecord "")) (some (echoedRecord "")) samplePlan "k"
      ["Read", "Write"] (echoedRecord "") rfl rfl (by decide) rfl (Or.inl rfl) (by decide) rfl rfl
      (echoServer_post "") (echoServer_get "")).2.2.1⟩

end SeqProvider
